import Mathlib

/-!
Loop cloning: symbolic condition model (`src/coreclr/jit/loopcloning.h`)

A shallow embedding of the symbolic value model of the loop-cloning header:
`ArrIndex`, `SpanIndex`, `LC_Array`, `LC_Span`, `LC_Ident`, `LC_Expr`,
`LC_Condition`, the optimization candidates, the dereference tree
`LC_ArrayDeref` and the per-loop tables of `LoopCloneContext`; and of the
allocation-helper initialization `InitJITHelpers1`
(`src/coreclr/vm/jitinterfacegen.cpp`, namespace `VM`).

Conventions of the embedding.

* `unsigned` fields are natural numbers; the single place where the header
  converts one to `int` (`(int)arrIndex->rank`) goes through `toInt32`.
* A pointer to a record is the record itself; a pointer the header itself
  initialises with `nullptr` is an `Option`.
* `GenTree*`, `BasicBlock*`, `Statement*` and the handle types are opaque
  node identities, modelled as natural numbers.
* A comparison that trips an `assert` (or dereferences `nullptr`) produces no
  boolean: the operators return `Option Bool`, `none` being that outcome.
-/

namespace LoopCloning

/-! ## Array and span access records -/

/-- The `ArrIndex` struct: an array access with the array and the indices in
locals. -/
structure ArrIndex where
  /-- The array base local num. -/
  arrLcl : Nat
  /-- The indices local nums (pushed elements of the `JitExpandArrayStack`). -/
  indLcls : List Nat
  /-- The bounds checks nodes along each dimension. -/
  bndsChks : List Nat
  /-- Rank of the array. -/
  rank : Nat
  /-- Block where the `[]` occurs (`nullptr` is `none`). -/
  useBlock : Option Nat
  deriving DecidableEq, Repr

/-- The `SpanIndex` struct: a span element access and its bounds check. -/
structure SpanIndex where
  /-- The Span length local num. -/
  lenLcl : Nat
  /-- The index local num. -/
  indLcl : Nat
  /-- The bounds check node (`nullptr` is `none`). -/
  bndsChk : Option Nat
  /-- Block where the `[]` occurs (`nullptr` is `none`). -/
  useBlock : Option Nat
  deriving DecidableEq, Repr

/-- The conversion `(int)u` of a 32-bit `unsigned` value to `int`. -/
def toInt32 (u : Nat) : Int :=
  if u % 2 ^ 32 < 2 ^ 31 then ((u % 2 ^ 32 : Nat) : Int) else ((u % 2 ^ 32 : Nat) : Int) - 2 ^ 32

/-- The read `indLcls[i]` of a `JitExpandArrayStack<unsigned>`. The container
is declared in a header that is not part of these sources; the value it yields
at a position at or beyond the pushed elements is the parameter `fill`. -/
def indexAt (fill : Nat) (s : List Nat) (i : Nat) : Nat :=
  s.getD i fill

/-- The enum `LC_Array::ArrType`. -/
inductive ArrType where
  | Invalid
  | Jagged
  | MdArray
  deriving DecidableEq, Repr

/-- The enum `LC_Array::OperType`. -/
inductive OperType where
  | None
  | ArrLen
  deriving DecidableEq, Repr

/-- The `LC_Array` struct: symbolic `a.length`, `a[i][j].length`, ... -/
structure LC_Array where
  /-- The type of the array on which to invoke length operator. -/
  type : ArrType
  /-- The record behind the `ArrIndex*` pointer. -/
  arrIndex : ArrIndex
  /-- Whether `arrLength` is invoked on the array. -/
  oper : OperType
  /-- Which index to invoke arrLen on, if -1 invoke on the whole array. -/
  dim : Int
  deriving DecidableEq, Repr

namespace LC_Array

/-- The method `LC_Array::GetDimRank`:
`return (dim < 0) ? (int)arrIndex->rank : dim;`. -/
def GetDimRank (a : LC_Array) : Int :=
  if a.dim < 0 then toInt32 a.arrIndex.rank else a.dim

/-- The constructor `LC_Array(type, arrIndex, dim, oper)`. -/
def newDim (type : ArrType) (arrIndex : ArrIndex) (dim : Int) (oper : OperType) : LC_Array :=
  { type := type, arrIndex := arrIndex, oper := oper, dim := dim }

/-- The constructor `LC_Array(type, arrIndex, oper)`, which stores `dim = -1`. -/
def new (type : ArrType) (arrIndex : ArrIndex) (oper : OperType) : LC_Array :=
  { type := type, arrIndex := arrIndex, oper := oper, dim := -1 }

/-- The index loop of `LC_Array::operator==`,
`for (int i = 0; i < rank1; ++i) if (indLcls[i] != that.indLcls[i]) return false;`
followed by `return true`, started at counter `i` with `n = rank1 - i`
iterations left. -/
def indicesLoop (fill : Nat) (p q : List Nat) : Nat → Nat → Bool
  | _, 0 => true
  | i, n + 1 =>
    if indexAt fill p i ≠ indexAt fill q i then false
    else indicesLoop fill p q (i + 1) n

/-- The operator `LC_Array::operator==`. `none` is the failed
`assert(type != Invalid && that.type != Invalid)`. -/
def eq (fill : Nat) (a that : LC_Array) : Option Bool :=
  if a.type = ArrType.Invalid ∨ that.type = ArrType.Invalid then none
  else if a.type ≠ that.type ∨ a.arrIndex.arrLcl ≠ that.arrIndex.arrLcl ∨ a.oper ≠ that.oper then
    some false
  else
    let rank1 := a.GetDimRank
    let rank2 := that.GetDimRank
    if rank1 ≠ rank2 then some false
    else some (indicesLoop fill a.arrIndex.indLcls that.arrIndex.indLcls 0 rank1.toNat)

end LC_Array

/-- The `LC_Span` struct: symbolic `Span.Length`. The default constructor
stores `nullptr` (`none`). -/
structure LC_Span where
  /-- The `SpanIndex*` pointer. -/
  spanIndex : Option SpanIndex
  deriving DecidableEq, Repr

/-- The operator `LC_Span::operator==`:
`(spanIndex->lenLcl == that.spanIndex->lenLcl) && (spanIndex->indLcl == that.spanIndex->indLcl)`.
`none` is the dereference of a null `spanIndex`. -/
def LC_Span.eq (a that : LC_Span) : Option Bool :=
  match a.spanIndex, that.spanIndex with
  | some s, some t => some (decide (s.lenLcl = t.lenLcl) && decide (s.indLcl = t.indLcl))
  | _, _ => none

/-! ## Symbolic values -/

/-- The enum `LC_Ident::IdentType`. -/
inductive IdentType where
  | Invalid
  | Const
  | Var
  | ArrAccess
  | SpanAccess
  | Null
  | ClassHandle
  | IndirOfLocal
  | MethodAddr
  | IndirOfMethodAddrSlot
  deriving DecidableEq, Repr

/-- The `LC_Ident` struct: a tag and the union member that belongs to it. The
constructor taking a tag is private, so the values are those of the default
constructor (`Invalid`) and of the `Create*` factories; each alternative
carries the union fields its factory writes. `targetMethHnd` exists in DEBUG
builds only (`none` otherwise). -/
inductive LC_Ident where
  | Invalid
  | Const (constant : Nat)
  | Var (lclNum : Nat)
  | ArrAccess (arrAccess : LC_Array)
  | SpanAccess (spanAccess : LC_Span)
  | Null
  | ClassHandle (clsHnd : Nat)
  | IndirOfLocal (lclNum : Nat) (indirOffs : Nat)
  | MethodAddr (methAddr : Nat) (targetMethHnd : Option Nat)
  | IndirOfMethodAddrSlot (methAddr : Nat) (targetMethHnd : Option Nat)
  deriving DecidableEq, Repr

namespace LC_Ident

/-- The field `LC_Ident::type`. -/
def type : LC_Ident → IdentType
  | Invalid => IdentType.Invalid
  | Const _ => IdentType.Const
  | Var _ => IdentType.Var
  | ArrAccess _ => IdentType.ArrAccess
  | SpanAccess _ => IdentType.SpanAccess
  | Null => IdentType.Null
  | ClassHandle _ => IdentType.ClassHandle
  | IndirOfLocal _ _ => IdentType.IndirOfLocal
  | MethodAddr _ _ => IdentType.MethodAddr
  | IndirOfMethodAddrSlot _ _ => IdentType.IndirOfMethodAddrSlot

/-- The factory `LC_Ident::CreateVar`. -/
def CreateVar (lclNum : Nat) : LC_Ident := Var lclNum

/-- The factory `LC_Ident::CreateIndirOfLocal`. -/
def CreateIndirOfLocal (lclNum offs : Nat) : LC_Ident := IndirOfLocal lclNum offs

/-- The factory `LC_Ident::CreateConst`. -/
def CreateConst (value : Nat) : LC_Ident := Const value

/-- The factory `LC_Ident::CreateArrAccess`. -/
def CreateArrAccess (arrLen : LC_Array) : LC_Ident := ArrAccess arrLen

/-- The factory `LC_Ident::CreateSpanAccess`. -/
def CreateSpanAccess (spanLen : LC_Span) : LC_Ident := SpanAccess spanLen

/-- The factory `LC_Ident::CreateNull`. -/
def CreateNull : LC_Ident := Null

/-- The factory `LC_Ident::CreateClassHandle`. -/
def CreateClassHandle (clsHnd : Nat) : LC_Ident := ClassHandle clsHnd

/-- The factory `LC_Ident::CreateMethodAddr`; `debug` tells whether the build
is a DEBUG build, in which the method handle argument exists and is stored. -/
def CreateMethodAddr (debug : Bool) (methAddr methHnd : Nat) : LC_Ident :=
  MethodAddr methAddr (if debug then some methHnd else none)

/-- The factory `LC_Ident::CreateIndirMethodAddrSlot`; `debug` as in
`CreateMethodAddr`. -/
def CreateIndirMethodAddrSlot (debug : Bool) (methAddrSlot methHnd : Nat) : LC_Ident :=
  IndirOfMethodAddrSlot methAddrSlot (if debug then some methHnd else none)

/-- The operator `LC_Ident::operator==`. `none` is an assertion failure: the
`default:` arm (`assert(!"Unknown LC_Ident type")`), or one raised by the
payload comparison. -/
def eq (fill : Nat) (a that : LC_Ident) : Option Bool :=
  if a.type ≠ that.type then some false
  else
    match a, that with
    | Const c, Const d => some (decide (c = d))
    | ClassHandle h, ClassHandle k => some (decide (h = k))
    | Var l, Var m => some (decide (l = m))
    | IndirOfLocal l o, IndirOfLocal m p => some (decide (l = m) && decide (o = p))
    | ArrAccess x, ArrAccess y => LC_Array.eq fill x y
    | SpanAccess x, SpanAccess y => LC_Span.eq x y
    | Null, Null => some true
    | MethodAddr p _, MethodAddr q _ => some (decide (p = q))
    | IndirOfMethodAddrSlot p _, IndirOfMethodAddrSlot q _ => some (decide (p = q))
    | _, _ => none

/-- An ident that `operator==` can compare with itself without tripping an
assertion: not the invalid sentinel, an embedded `LC_Array` of a valid kind,
an embedded `LC_Span` over a non-null `SpanIndex`. -/
def isValid : LC_Ident → Bool
  | Invalid => false
  | ArrAccess a => decide (a.type ≠ ArrType.Invalid)
  | SpanAccess s => s.spanIndex.isSome
  | _ => true

end LC_Ident

/-- The enum `LC_Expr::ExprType`. -/
inductive ExprType where
  | Invalid
  | Ident
  deriving DecidableEq, Repr

/-- The `LC_Expr` struct. -/
structure LC_Expr where
  ident : LC_Ident
  type : ExprType
  deriving DecidableEq, Repr

namespace LC_Expr

/-- The default constructor `LC_Expr()`. -/
def new : LC_Expr := { ident := LC_Ident.Invalid, type := ExprType.Invalid }

/-- The constructor `LC_Expr(const LC_Ident&)`. -/
def ofIdent (ident : LC_Ident) : LC_Expr := { ident := ident, type := ExprType.Ident }

/-- The operator `LC_Expr::operator==`. `none` is the failed
`assert(type != Invalid && that.type != Invalid)` or a failure of the ident
comparison. -/
def eq (fill : Nat) (e that : LC_Expr) : Option Bool :=
  if e.type = ExprType.Invalid ∨ that.type = ExprType.Invalid then none
  else if e.type ≠ that.type then some false
  else LC_Ident.eq fill e.ident that.ident

/-- A valid expression: of type `Ident`, wrapping a valid ident. -/
def isValid (e : LC_Expr) : Bool :=
  decide (e.type = ExprType.Ident) && e.ident.isValid

/-- An array-length or span-length expression: an `Ident` expression whose
ident is an array access with the `ArrLen` operator, or a span access. -/
def isLength (e : LC_Expr) : Bool :=
  decide (e.type = ExprType.Ident) &&
    (match e.ident with
     | LC_Ident.ArrAccess a => decide (a.oper = OperType.ArrLen)
     | LC_Ident.SpanAccess _ => true
     | _ => false)

/-- The constant a constant expression denotes, if it is one. -/
def constValue (e : LC_Expr) : Option Nat :=
  match e.type, e.ident with
  | ExprType.Ident, LC_Ident.Const c => some c
  | _, _ => none

end LC_Expr

/-! ## Conditions -/

/-- Modelled from the spec: the enum `genTreeOps`, declared outside these
sources. The operator of a condition is "one of: less-than, less-or-equal,
greater-than, greater-or-equal", the four the BNF of the header lists
(`genTreeOps : GT_GE | GT_LE | GT_GT | GT_LT`). -/
inductive genTreeOps where
  | GT_GE
  | GT_LE
  | GT_GT
  | GT_LT
  deriving DecidableEq, Repr

/-- The `LC_Condition` struct. -/
structure LC_Condition where
  op1 : LC_Expr
  op2 : LC_Expr
  oper : genTreeOps
  compareUnsigned : Bool
  deriving DecidableEq, Repr

namespace LC_Ident

/-- The per-tag payload comparison in the words of the data model: constants
for `Const`, slot ids for `Var`, slot ids and byte offsets for `IndirOfLocal`,
`LC_Array` equality for `ArrAccess`, `LC_Span` equality for `SpanAccess`,
always for `Null`, handles for `ClassHandle`, addresses for `MethodAddr` and
`IndirOfMethodAddrSlot`. Idents of different tags have no common payload. -/
def SamePayload (fill : Nat) : LC_Ident → LC_Ident → Prop
  | Const c, Const d => c = d
  | Var l, Var m => l = m
  | IndirOfLocal l o, IndirOfLocal m p => l = m ∧ o = p
  | ArrAccess x, ArrAccess y => LC_Array.eq fill x y = some true
  | SpanAccess x, SpanAccess y => LC_Span.eq x y = some true
  | Null, Null => True
  | ClassHandle h, ClassHandle k => h = k
  | MethodAddr p _, MethodAddr q _ => p = q
  | IndirOfMethodAddrSlot p _, IndirOfMethodAddrSlot q _ => p = q
  | _, _ => False

end LC_Ident

/-- The four-part criterion of the testable properties: "same base slot, same
effective dimension rank, same index-slot sequence up to that rank, same
length-operator". -/
def LC_Array.FourPart (fill : Nat) (a b : LC_Array) : Prop :=
  a.arrIndex.arrLcl = b.arrIndex.arrLcl ∧
  a.GetDimRank = b.GetDimRank ∧
  (∀ i : Nat, (i : Int) < a.GetDimRank →
    indexAt fill a.arrIndex.indLcls i = indexAt fill b.arrIndex.indLcls i) ∧
  a.oper = b.oper

namespace LC_Condition

/-- Modelled from the spec: the "strict relational operator" test used by
`Evaluates`. -/
def isStrict : genTreeOps → Bool
  | genTreeOps.GT_GT => true
  | genTreeOps.GT_LT => true
  | _ => false

/-- Modelled from the spec: the body of `LC_Condition::Evaluates`, which the
header only declares. It "must recognize at least: an identical-expression
self-comparison under a strict relational operator (statically false), and a
length-of-nothing-bound comparison such as length ≥ 0 (statically true)" and
"returns false (not evaluable) for all other shapes". The argument is the
value behind `pResult` on entry; the result is the returned flag and the value
behind `pResult` on exit (`none`: the operand comparison failed an
assertion). -/
def Evaluates (fill : Nat) (c : LC_Condition) (pResult : Bool) : Option (Bool × Bool) :=
  if isStrict c.oper then
    match LC_Expr.eq fill c.op1 c.op2 with
    | none => none
    | some true => some (true, false)
    | some false => some (false, pResult)
  else if c.oper = genTreeOps.GT_GE ∧ c.op1.isLength = true ∧ c.op2.constValue = some 0 then
    some (true, true)
  else some (false, pResult)

/-- The static value of a condition: `some (some b)` when `Evaluates` returns
true with result `b`, `some none` when it returns false, `none` when it fails. -/
def staticValue (fill : Nat) (c : LC_Condition) : Option (Option Bool) :=
  (c.Evaluates fill false).map (fun r => if r.1 then some r.2 else none)

/-- The integer a 32-bit operand value stands for in a comparison: its
unsigned reading under `compareUnsigned`, its signed reading otherwise. -/
def operandValue (asUnsigned : Bool) (v : Nat) : Int :=
  if asUnsigned then ((v % 2 ^ 32 : Nat) : Int) else toInt32 v

/-- Modelled from the spec: the "tighter one" of two constant bounds, used by
`Combines`. Tells whether `k1` is at least as tight as `k2` for the operator: the smaller one for an upper bound (`<`, `<=`), the larger one for a
lower bound (`>`, `>=`). -/
def tighter (oper : genTreeOps) (asUnsigned : Bool) (k1 k2 : Nat) : Bool :=
  match oper with
  | genTreeOps.GT_LT => decide (operandValue asUnsigned k1 ≤ operandValue asUnsigned k2)
  | genTreeOps.GT_LE => decide (operandValue asUnsigned k1 ≤ operandValue asUnsigned k2)
  | genTreeOps.GT_GT => decide (operandValue asUnsigned k2 ≤ operandValue asUnsigned k1)
  | genTreeOps.GT_GE => decide (operandValue asUnsigned k2 ≤ operandValue asUnsigned k1)

/-- Modelled from the spec: the body of `LC_Condition::Combines`, which the
header only declares. "Given two conditions that share the same left operand,
attempts to produce one condition at least as tight as both (e.g. two upper
bounds on the same index collapse to the tighter one). Returns false if no
sound merge exists." Two conditions merge when they have the same left
operand, operator and signedness and their right operands are either both
constants (the tighter one is kept) or the same expression. The result is
`some (some m)` when it returns true with `*newCond = m`, `some none` when it
returns false, `none` when an operand comparison fails an assertion. -/
def Combines (fill : Nat) (c cond : LC_Condition) : Option (Option LC_Condition) :=
  match LC_Expr.eq fill c.op1 cond.op1 with
  | none => none
  | some false => some none
  | some true =>
    if c.oper ≠ cond.oper ∨ c.compareUnsigned ≠ cond.compareUnsigned then some none
    else
      match c.op2.constValue, cond.op2.constValue with
      | some k1, some k2 =>
        some (some (if tighter c.oper c.compareUnsigned k1 k2 then c else cond))
      | _, _ =>
        match LC_Expr.eq fill c.op2 cond.op2 with
        | none => none
        | some true => some (some c)
        | some false => some none

/-- Both operands are valid expressions. -/
def isValid (c : LC_Condition) : Bool :=
  c.op1.isValid && c.op2.isValid

end LC_Condition

/-! ## Runtime meaning of conditions -/

/-- The runtime value of an operand under an assignment `ρ` of values to the
symbolic idents: a constant denotes itself. -/
def LC_Expr.eval (ρ : LC_Ident → Nat) (e : LC_Expr) : Nat :=
  match e.ident with
  | LC_Ident.Const c => c
  | i => ρ i

/-- An assignment gives idents that compare equal the same value. -/
def Respects (fill : Nat) (ρ : LC_Ident → Nat) : Prop :=
  ∀ x y, LC_Ident.eq fill x y = some true → ρ x = ρ y

/-- The relation a relational operator denotes. -/
def genTreeOps.rel : genTreeOps → Int → Int → Prop
  | genTreeOps.GT_GE, x, y => x ≥ y
  | genTreeOps.GT_LE, x, y => x ≤ y
  | genTreeOps.GT_GT, x, y => x > y
  | genTreeOps.GT_LT, x, y => x < y

/-- The condition holds at run time under the assignment `ρ`. -/
def LC_Condition.Holds (ρ : LC_Ident → Nat) (c : LC_Condition) : Prop :=
  c.oper.rel (LC_Condition.operandValue c.compareUnsigned (c.op1.eval ρ))
    (LC_Condition.operandValue c.compareUnsigned (c.op2.eval ρ))

/-! ## Optimization candidates -/

/-- The enum `LcOptInfo::OptType`; its enumerators are generated from
`loopcloningopts.h` and are the tags the five derived constructors pass. -/
inductive OptType where
  | LcMdArray
  | LcJaggedArray
  | LcSpan
  | LcTypeTest
  | LcMethodAddrTest
  deriving DecidableEq, Repr

/-- The parts of a `GenTreeArrElem` node that `GetArrIndexForDim` reads: the
local number of the array object, the rank, and the local numbers of the index
operands. -/
structure GenTreeArrElem where
  gtArrObj : Nat
  gtArrRank : Nat
  gtArrInds : List Nat
  deriving DecidableEq, Repr

/-- The `LcMdArrayOptInfo` struct with the inherited `optType`. -/
structure LcMdArrayOptInfo where
  optType : OptType
  arrElem : GenTreeArrElem
  dim : Nat
  index : Option ArrIndex
  deriving DecidableEq, Repr

/-- The `LcJaggedArrayOptInfo` struct with the inherited `optType`. -/
structure LcJaggedArrayOptInfo where
  optType : OptType
  dim : Nat
  arrIndex : ArrIndex
  stmt : Nat
  deriving DecidableEq, Repr

/-- The `LcSpanOptInfo` struct with the inherited `optType`. -/
structure LcSpanOptInfo where
  optType : OptType
  spanIndex : SpanIndex
  stmt : Nat
  deriving DecidableEq, Repr

/-- The `LcTypeTestOptInfo` struct with the inherited `optType`. -/
structure LcTypeTestOptInfo where
  optType : OptType
  block : Nat
  stmt : Nat
  methodTableIndir : Nat
  lclNum : Nat
  clsHnd : Nat
  deriving DecidableEq, Repr

/-- The `LcMethodAddrTestOptInfo` struct with the inherited `optType`;
`targetMethHnd` exists in DEBUG builds only. -/
structure LcMethodAddrTestOptInfo where
  optType : OptType
  block : Nat
  stmt : Nat
  delegateAddressIndir : Nat
  delegateLclNum : Nat
  methAddr : Nat
  isSlot : Bool
  targetMethHnd : Option Nat
  deriving DecidableEq, Repr

/-- The object behind an `LcOptInfo*`: one of the five derived structs. -/
inductive LcOptInfo where
  | mdArray (info : LcMdArrayOptInfo)
  | jaggedArray (info : LcJaggedArrayOptInfo)
  | span (info : LcSpanOptInfo)
  | typeTest (info : LcTypeTestOptInfo)
  | methodAddrTest (info : LcMethodAddrTestOptInfo)
  deriving DecidableEq, Repr

/-! ## The loop clone context -/

/-- The per-loop tables of `LoopCloneContext`; an entry is a nullable pointer
to a list. -/
structure LoopCloneContext where
  optInfo : List (Option (List LcOptInfo))
  conditions : List (Option (List LC_Condition))
  arrayDerefs : List (Option (List LC_Array))
  objDerefs : List (Option (List LC_Ident))
  blockConditions : List (Option (List (Option (List LC_Condition))))
  iterInfo : List (Option Nat)
  deriving DecidableEq, Repr

namespace LoopCloneContext

/-- The constructor `LoopCloneContext(loopCount, alloc)`: every table is
resized to `loopCount` null entries. -/
def new (loopCount : Nat) : LoopCloneContext :=
  { optInfo := List.replicate loopCount none
    conditions := List.replicate loopCount none
    arrayDerefs := List.replicate loopCount none
    objDerefs := List.replicate loopCount none
    blockConditions := List.replicate loopCount none
    iterInfo := List.replicate loopCount none }

/-- Modelled from the spec: the body of `LoopCloneContext::CancelLoopOptInfo`,
which the header only declares. It "clears conditions and nulls the candidate
list"; in the words of the header, "clearing out the conditions member if
non-null and setting the optInfo to null". `none`: `loopNum` is not an index
of the two tables. -/
def CancelLoopOptInfo (ctx : LoopCloneContext) (loopNum : Nat) : Option LoopCloneContext :=
  if loopNum < ctx.optInfo.length ∧ loopNum < ctx.conditions.length then
    some { ctx with
      optInfo := ctx.optInfo.set loopNum none
      conditions :=
        ctx.conditions.set loopNum ((ctx.conditions.getD loopNum none).map (fun _ => [])) }
  else none

/-- Modelled from the spec: the loop of `EvaluateConditions` over the
condition list, carrying the two flags; a statically false condition is not
statically true, so it clears `allTrue` as well. -/
def evaluateLoop (fill : Nat) : List LC_Condition → Bool → Bool → Option (Bool × Bool)
  | [], allTrue, anyFalse => some (allTrue, anyFalse)
  | c :: cs, allTrue, anyFalse =>
    match c.staticValue fill with
    | none => none
    | some (some true) => evaluateLoop fill cs allTrue anyFalse
    | some (some false) => evaluateLoop fill cs false true
    | some none => evaluateLoop fill cs false anyFalse

/-- Modelled from the spec: the body of `LoopCloneContext::EvaluateConditions`,
which the header only declares. It "aggregates the already-optimized flat list
under AND semantics — allTrue true only if every condition statically
evaluated true; anyFalse true if any one did" evaluate false. The result is
the pair written through `pAllTrue` and `pAnyFalse` (`none`: no condition list
for the loop, or a failed assertion). -/
def EvaluateConditions (fill : Nat) (ctx : LoopCloneContext) (loopNum : Nat) :
    Option (Bool × Bool) :=
  match ctx.conditions.getD loopNum none with
  | some conds => evaluateLoop fill conds true false
  | none => none

/-- Modelled from the spec: part of `OptimizeConditions` ("applies Combines
pairwise across the flat list"). Tries to merge `c` with the first condition
of the list that combines with it: `some (some (m, rest))` is the merged condition and the list without the
absorbed entry, `some none` says that nothing combines. -/
def combineInto (fill : Nat) (c : LC_Condition) :
    List LC_Condition → Option (Option (LC_Condition × List LC_Condition))
  | [] => some none
  | d :: ds =>
    match c.Combines fill d with
    | none => none
    | some (some m) => some (some (m, ds))
    | some none =>
      match combineInto fill c ds with
      | none => none
      | some none => some none
      | some (some (m, rest)) => some (some (m, d :: rest))

/-- Modelled from the spec: part of `OptimizeConditions`. One merge of the
first pair (by position) that combines: `some none` says that no pair of the
list combines. -/
def combineStep (fill : Nat) : List LC_Condition → Option (Option (List LC_Condition))
  | [] => some none
  | c :: cs =>
    match combineInto fill c cs with
    | none => none
    | some (some (m, rest)) => some (some (m :: rest))
    | some none =>
      match combineStep fill cs with
      | none => none
      | some none => some none
      | some (some cs1) => some (some (c :: cs1))

/-- Modelled from the spec: part of `OptimizeConditions`. Merges pairs until
none combines; every merge shortens the list, so the length of the list bounds
the number of rounds. -/
def combineAll (fill : Nat) : Nat → List LC_Condition → Option (List LC_Condition)
  | 0, conds => some conds
  | n + 1, conds =>
    match combineStep fill conds with
    | none => none
    | some none => some conds
    | some (some conds1) => combineAll fill n conds1

/-- Modelled from the spec: part of `OptimizeConditions` ("then applies
Evaluates to each remaining condition"), left to right: a statically true
condition is removed, a statically false one stops the pass at once
(`some none`). -/
def removeStatic (fill : Nat) : List LC_Condition → Option (Option (List LC_Condition))
  | [] => some (some [])
  | c :: cs =>
    match c.staticValue fill with
    | none => none
    | some (some false) => some none
    | some (some true) => removeStatic fill cs
    | some none =>
      match removeStatic fill cs with
      | none => none
      | some none => some none
      | some (some rest) => some (some (c :: rest))

/-- Modelled from the spec: the body of `LoopCloneContext::OptimizeConditions`,
which the header only declares. It "applies Combines pairwise across the flat
list to remove redundancy, then applies Evaluates to each remaining condition;
any statically-false condition triggers immediate CancelLoopOptInfo"; in the
words of the header, conditions that "evaluate to true statically ... are
removed". `none`: no condition list for the loop, or a failed assertion. -/
def OptimizeConditions (fill : Nat) (ctx : LoopCloneContext) (loopNum : Nat) :
    Option LoopCloneContext :=
  match ctx.conditions.getD loopNum none with
  | none => none
  | some conds =>
    match combineAll fill conds.length conds with
    | none => none
    | some merged =>
      match removeStatic fill merged with
      | none => none
      | some none => CancelLoopOptInfo ctx loopNum
      | some (some residual) =>
        some { ctx with conditions := ctx.conditions.set loopNum (some residual) }

end LoopCloneContext

/-! ## The cached `ArrIndex` of a multi-dimensional candidate -/

/-- The constructor `ArrIndex(alloc)`. `BAD_VAR_NUM` is defined outside these
sources and is a parameter. -/
def ArrIndex.new (BAD_VAR_NUM : Nat) : ArrIndex :=
  { arrLcl := BAD_VAR_NUM, indLcls := [], bndsChks := [], rank := 0, useBlock := none }

namespace LcMdArrayOptInfo

/-- The constructor `LcMdArrayOptInfo(arrElem, dim)`. -/
def new (arrElem : GenTreeArrElem) (dim : Nat) : LcMdArrayOptInfo :=
  { optType := OptType.LcMdArray, arrElem := arrElem, dim := dim, index := none }

/-- The loop of `GetArrIndexForDim`,
`for (unsigned i = 0; i < dim; ++i) index->indLcls.Push(arrElem->gtArrInds[i]->AsLclVarCommon()->GetLclNum());`
started at counter `i` with `n = dim - i` iterations left and the slots pushed
so far. `none`: the node has no index operand at position `i`. -/
def pushLoop (arrElem : GenTreeArrElem) : Nat → Nat → List Nat → Option (List Nat)
  | _, 0, indLcls => some indLcls
  | i, n + 1, indLcls =>
    match arrElem.gtArrInds[i]? with
    | none => none
    | some lclNum => pushLoop arrElem (i + 1) n (indLcls ++ [lclNum])

/-- The method `LcMdArrayOptInfo::GetArrIndexForDim`. The result is the record
behind the returned pointer and the candidate after the call (`none`: the loop
read an index operand the node does not have). -/
def GetArrIndexForDim (BAD_VAR_NUM : Nat) (info : LcMdArrayOptInfo) :
    Option (ArrIndex × LcMdArrayOptInfo) :=
  match info.index with
  | some index => some (index, info)
  | none =>
    let index := ArrIndex.new BAD_VAR_NUM
    let index := { index with rank := info.arrElem.gtArrRank }
    match pushLoop info.arrElem 0 info.dim index.indLcls with
    | none => none
    | some indLcls =>
      let index := { index with indLcls := indLcls }
      let index := { index with arrLcl := info.arrElem.gtArrObj }
      some (index, { info with index := some index })

end LcMdArrayOptInfo

/-! ## Candidate constructors and the checked downcast -/

/-- The constructor `LcJaggedArrayOptInfo(arrIndex, dim, stmt)`. -/
def LcJaggedArrayOptInfo.new (arrIndex : ArrIndex) (dim : Nat) (stmt : Nat) :
    LcJaggedArrayOptInfo :=
  { optType := OptType.LcJaggedArray, dim := dim, arrIndex := arrIndex, stmt := stmt }

/-- The constructor `LcSpanOptInfo(spanIndex, stmt)`. -/
def LcSpanOptInfo.new (spanIndex : SpanIndex) (stmt : Nat) : LcSpanOptInfo :=
  { optType := OptType.LcSpan, spanIndex := spanIndex, stmt := stmt }

/-- The constructor `LcTypeTestOptInfo(block, stmt, methodTableIndir, lclNum, clsHnd)`. -/
def LcTypeTestOptInfo.new (block stmt methodTableIndir lclNum clsHnd : Nat) :
    LcTypeTestOptInfo :=
  { optType := OptType.LcTypeTest, block := block, stmt := stmt,
    methodTableIndir := methodTableIndir, lclNum := lclNum, clsHnd := clsHnd }

/-- The constructor `LcMethodAddrTestOptInfo(...)`; `debug` tells whether the
build is a DEBUG build, in which `targetMethHnd` exists and is stored. -/
def LcMethodAddrTestOptInfo.new (debug : Bool)
    (block stmt delegateAddressIndir delegateLclNum methAddr : Nat) (isSlot : Bool)
    (targetMethHnd : Nat) : LcMethodAddrTestOptInfo :=
  { optType := OptType.LcMethodAddrTest, block := block, stmt := stmt,
    delegateAddressIndir := delegateAddressIndir, delegateLclNum := delegateLclNum,
    methAddr := methAddr, isSlot := isSlot,
    targetMethHnd := if debug then some targetMethHnd else none }

namespace LcOptInfo

/-- The method `LcOptInfo::GetOptType`: the inherited `optType` field. -/
def GetOptType : LcOptInfo → OptType
  | mdArray info => info.optType
  | jaggedArray info => info.optType
  | span info => info.optType
  | typeTest info => info.optType
  | methodAddrTest info => info.optType

/-- The methods `As##en##OptInfo()` the `LC_OPT` macro generates, for the
enumerator `en`: `assert(optType == en); return reinterpret_cast<en##OptInfo*>(this);`.
The result is the object itself (`none`: the assertion fails). -/
def As (en : OptType) (info : LcOptInfo) : Option LcOptInfo :=
  if info.GetOptType = en then some info else none

end LcOptInfo

/-! ## The positions `LC_Array::operator==` reads -/

namespace LC_Array

/-- The positions at which the index loop of `operator==` reads `indLcls` (of
both operands), in order; the loop stops after the first position where the
two slots differ. -/
def indicesLoopReads (fill : Nat) (p q : List Nat) : Nat → Nat → List Nat
  | _, 0 => []
  | i, n + 1 =>
    i :: (if indexAt fill p i ≠ indexAt fill q i then []
          else indicesLoopReads fill p q (i + 1) n)

/-- The positions at which `operator==` reads `arrIndex->indLcls` and
`that.arrIndex->indLcls`: none before the index loop runs. -/
def eqReads (fill : Nat) (a that : LC_Array) : List Nat :=
  if a.type = ArrType.Invalid ∨ that.type = ArrType.Invalid then []
  else if a.type ≠ that.type ∨ a.arrIndex.arrLcl ≠ that.arrIndex.arrLcl ∨ a.oper ≠ that.oper then
    []
  else
    let rank1 := a.GetDimRank
    let rank2 := that.GetDimRank
    if rank1 ≠ rank2 then []
    else indicesLoopReads fill a.arrIndex.indLcls that.arrIndex.indLcls 0 rank1.toNat

/-- Two values that `operator==` cannot tell apart: same kind, base slot,
operator and effective rank `r`, and the same index slot at every position
below `r`. -/
def AgreesOnRead (fill : Nat) (a b : LC_Array) : Prop :=
  a.type = b.type ∧ a.arrIndex.arrLcl = b.arrIndex.arrLcl ∧ a.oper = b.oper ∧
  a.GetDimRank = b.GetDimRank ∧
  ∀ i : Nat, (i : Int) < a.GetDimRank →
    indexAt fill a.arrIndex.indLcls i = indexAt fill b.arrIndex.indLcls i

end LC_Array

/-! ## Block conditions -/

namespace LoopCloneContext

/-- Modelled from the spec: the body of `LoopCloneContext::EnsureBlockConditions`,
which the header only declares: "allocate-or-fetch the level-grouped condition
lists that must each become a separate short-circuiting control-flow block".
A null entry is replaced by `totalBlocks` empty level lists. The result is the
list behind the returned pointer and the context after the call (`none`:
`loopNum` is not an index of the table). -/
def EnsureBlockConditions (ctx : LoopCloneContext) (loopNum totalBlocks : Nat) :
    Option (List (Option (List LC_Condition)) × LoopCloneContext) :=
  if loopNum < ctx.blockConditions.length then
    match ctx.blockConditions.getD loopNum none with
    | some levels => some (levels, ctx)
    | none =>
      some (List.replicate totalBlocks (some []),
        { ctx with
          blockConditions :=
            ctx.blockConditions.set loopNum (some (List.replicate totalBlocks (some []))) })
  else none

end LoopCloneContext

/-! ## The dereference tree -/

/-- The `LC_ArrayDeref` struct: the array this node derefs, the nullable
pointer to the list of child nodes, and the nesting level. -/
inductive LC_ArrayDeref where
  | mk (array : LC_Array) (children : Option (List LC_ArrayDeref)) (level : Nat)

namespace LC_ArrayDeref

/-- The field `array`. -/
def array : LC_ArrayDeref → LC_Array
  | mk a _ _ => a

/-- The field `children`. -/
def children : LC_ArrayDeref → Option (List LC_ArrayDeref)
  | mk _ c _ => c

/-- The field `level`. -/
def level : LC_ArrayDeref → Nat
  | mk _ _ l => l

/-- The child nodes: none when `children` is null. -/
def childList (node : LC_ArrayDeref) : List LC_ArrayDeref :=
  node.children.getD []

/-- The constructor `LC_ArrayDeref(array, level)`, which stores
`children = nullptr`. -/
def new (array : LC_Array) (level : Nat) : LC_ArrayDeref :=
  mk array none level

/-- Modelled from the spec: the body of `LC_ArrayDeref::Lcl`, which the header
only declares. The tree is "keyed by local-slot id": a node of level 0 stands
for the base array slot of its access, a node of level `L + 1` for the index
slot of dimension `L` (the header draws `a => { i => { j => ... } }` for
`a[i][j]`). -/
def Lcl (fill : Nat) (node : LC_ArrayDeref) : Nat :=
  if node.level = 0 then node.array.arrIndex.arrLcl
  else indexAt fill node.array.arrIndex.indLcls (node.level - 1)

/-- Modelled from the spec: the body of the static
`LC_ArrayDeref::Find(children, lcl)`, which the header only declares: "locate
the existing child node for a given base slot within a sibling list, or report
absence". -/
def FindIn (fill : Nat) (children : Option (List LC_ArrayDeref)) (lcl : Nat) :
    Option LC_ArrayDeref :=
  match children with
  | none => none
  | some siblings => siblings.find? (fun c => decide (c.Lcl fill = lcl))

/-- Modelled from the spec: the body of `LC_ArrayDeref::Find(lcl)`, the same
search among the children of this node. -/
def Find (fill : Nat) (node : LC_ArrayDeref) (lcl : Nat) : Option LC_ArrayDeref :=
  FindIn fill node.children lcl

/-- Modelled from the spec: the body of `LC_ArrayDeref::EnsureChildren`, which
"lazily allocates the child-list storage for a node the first time a new
distinct sub-access is recorded". -/
def EnsureChildren (node : LC_ArrayDeref) : LC_ArrayDeref :=
  match node.children with
  | none => mk node.array (some []) node.level
  | some _ => node

/-- The update in place of the first sibling whose `Lcl()` is `lcl` (the node
`Find` returns). -/
def updateFound (fill : Nat) (lcl : Nat) (f : LC_ArrayDeref → LC_ArrayDeref) :
    List LC_ArrayDeref → List LC_ArrayDeref
  | [] => []
  | c :: cs => if c.Lcl fill = lcl then f c :: cs else c :: updateFound fill lcl f cs

/-- Modelled from the spec: the descent of the tree builder below `node` along
the index slots `i, i + 1, ...` (`n` of them left) of the access `array`. At
each dimension the child list is ensured, the child for the index slot is
looked up with `Find` and created one level deeper when absent "to avoid
creating duplicate deref-chain branches", and the builder descends into it. -/
def addLevels (fill : Nat) (array : LC_Array) : Nat → Nat → LC_ArrayDeref → LC_ArrayDeref
  | _, 0, node => node
  | i, n + 1, node =>
    let node1 := node.EnsureChildren
    let lcl := indexAt fill array.arrIndex.indLcls i
    match node1.Find fill lcl with
    | none =>
      mk node1.array
        (some (node1.childList ++ [addLevels fill array (i + 1) n (new array (node1.level + 1))]))
        node1.level
    | some _ =>
      mk node1.array
        (some (updateFound fill lcl (addLevels fill array (i + 1) n) node1.childList))
        node1.level

/-- Modelled from the spec: one round of the tree builder, for one access of
the flat array-dereference list: the root for the base slot is looked up with
the static `Find` among the roots and created at level 0 when absent ("the
tree's root set has one entry per distinct base array slot"); then the index
slots up to the effective rank are added below it. -/
def addAccess (fill : Nat) (roots : List LC_ArrayDeref) (array : LC_Array) : List LC_ArrayDeref :=
  match FindIn fill (some roots) array.arrIndex.arrLcl with
  | none => roots ++ [addLevels fill array 0 array.GetDimRank.toNat (new array 0)]
  | some _ =>
    updateFound fill array.arrIndex.arrLcl (addLevels fill array 0 array.GetDimRank.toNat) roots

/-- Modelled from the spec: the tree builder, "built fresh per loop from the
flat array-dereference condition list". The result is the list of roots. -/
def build (fill : Nat) (arrayDeref : List LC_Array) : List LC_ArrayDeref :=
  arrayDeref.foldl (addAccess fill) []

/-- No duplicate branches down to `depth` levels below a sibling list of
level `level`: the siblings have pairwise different `Lcl()`, each has the
level of the list, and the same holds for the children of each. -/
def NoDuplicates (fill : Nat) : Nat → Nat → List LC_ArrayDeref → Prop
  | 0, _, _ => True
  | depth + 1, level, siblings =>
    (siblings.map (Lcl fill)).Nodup ∧
    ∀ c ∈ siblings, c.level = level ∧ NoDuplicates fill depth (level + 1) c.childList

end LC_ArrayDeref

/-! ## The condition lifecycle and the block-count cap -/

namespace LC_ArrayDeref

mutual
/-- The number of nesting levels below a node of the tree. -/
def levelsBelow : LC_ArrayDeref → Nat
  | mk _ none _ => 0
  | mk _ (some cs) _ => levelsOf cs
/-- The number of nesting levels of a sibling list with what hangs below it
(0 for the empty list). -/
def levelsOf : List LC_ArrayDeref → Nat
  | [] => 0
  | c :: cs => max (levelsBelow c + 1) (levelsOf cs)
end

end LC_ArrayDeref

namespace LoopCloneContext

/-- Modelled from the spec: the allocate-or-fetch common to the `Ensure*`
methods, which the header only declares, on one table: "If NULL this allocates" an empty list for
`loopNum`. The result is the table after the call (`none`: `loopNum` is not an
index of the table). -/
def ensureAt {α : Type} (table : List (Option (List α))) (loopNum : Nat) :
    Option (List (Option (List α))) :=
  if loopNum < table.length then
    some (table.set loopNum (some ((table.getD loopNum none).getD [])))
  else none

/-- Modelled from the spec: the call `Push(x)` on the list an `Ensure*` method
returns for `loopNum` (`JitExpandArrayStack` is declared outside these
sources). -/
def pushAt {α : Type} (table : List (Option (List α))) (loopNum : Nat) (x : α) :
    Option (List (Option (List α))) :=
  if loopNum < table.length then
    some (table.set loopNum (some ((table.getD loopNum none).getD [] ++ [x])))
  else none

/-- Modelled from the spec: the body of `LoopCloneContext::EnsureLoopOptInfo`,
which the header only declares ("If NULL this allocates the optInfo[loopNum]
array"). The result is the context after the call. -/
def EnsureLoopOptInfo (ctx : LoopCloneContext) (loopNum : Nat) : Option LoopCloneContext :=
  (ensureAt ctx.optInfo loopNum).map (fun t => { ctx with optInfo := t })

/-- Modelled from the spec: the body of `LoopCloneContext::EnsureConditions`,
which the header only declares ("If NULL allocate an empty array"). -/
def EnsureConditions (ctx : LoopCloneContext) (loopNum : Nat) : Option LoopCloneContext :=
  (ensureAt ctx.conditions loopNum).map (fun t => { ctx with conditions := t })

/-- Modelled from the spec: the body of `LoopCloneContext::EnsureArrayDerefs`,
which the header only declares ("Ensure that the array deref conditions array
is allocated"). -/
def EnsureArrayDerefs (ctx : LoopCloneContext) (loopNum : Nat) : Option LoopCloneContext :=
  (ensureAt ctx.arrayDerefs loopNum).map (fun t => { ctx with arrayDerefs := t })

/-- Modelled from the spec: the body of `LoopCloneContext::EnsureObjDerefs`,
which the header only declares ("Ensure that the obj deref conditions array is
allocated"). -/
def EnsureObjDerefs (ctx : LoopCloneContext) (loopNum : Nat) : Option LoopCloneContext :=
  (ensureAt ctx.objDerefs loopNum).map (fun t => { ctx with objDerefs := t })

/-- Modelled from the spec: the body of `LoopCloneContext::SetLoopIterInfo`,
which the header only declares: the entry of `iterInfo` for the loop is set
(`none`: `loopNum` is not an index of the table). -/
def SetLoopIterInfo (ctx : LoopCloneContext) (loopNum : Nat) (info : Option Nat) :
    Option LoopCloneContext :=
  if loopNum < ctx.iterInfo.length then
    some { ctx with iterInfo := ctx.iterInfo.set loopNum info }
  else none

/-- Modelled from the spec: the dereference tree of a loop, "built fresh per
loop from the flat array-dereference condition list" of the loop (no list: no
access). -/
def derefTree (fill : Nat) (ctx : LoopCloneContext) (loopNum : Nat) : List LC_ArrayDeref :=
  LC_ArrayDeref.build fill ((ctx.arrayDerefs.getD loopNum none).getD [])

/-- Modelled from the spec: the block-count policy of the condition lifecycle,
applied where the block conditions of a loop are derived
(`optComputeDerefConditions`, which the header names and these sources do not
hold): "if deriving these would require more than 4 blocks, loop cloning for
that candidate dimension must be abandoned", through `CancelLoopOptInfo`, "the
sole abort path"; otherwise the level-grouped lists are obtained from
`EnsureBlockConditions`. The number of short-circuit blocks a dereference tree
requires is the parameter `requiredBlocks`, a function of the tree of the
loop: neither the header nor the spec gives its formula. The filling of the
level lists by `DeriveLevelConditions` is not part of the model. -/
def deriveBlockConditions (fill : Nat) (requiredBlocks : List LC_ArrayDeref → Nat)
    (ctx : LoopCloneContext) (loopNum : Nat) : Option LoopCloneContext :=
  if 4 < requiredBlocks (ctx.derefTree fill loopNum) then ctx.CancelLoopOptInfo loopNum
  else
    (ctx.EnsureBlockConditions loopNum (requiredBlocks (ctx.derefTree fill loopNum))).map
      (fun r => r.2)

/-- Modelled from the spec: the operations on the context that the lifecycle
of a loop is made of
("loop slots populated on demand"): the `Ensure*` methods, a `Push` on the
list each of them returns, `SetLoopIterInfo`, `CancelLoopOptInfo`,
`OptimizeConditions`, and the derivation of the block conditions, the one
place where `EnsureBlockConditions` is called. -/
inductive Operation where
  | EnsureLoopOptInfo (loopNum : Nat)
  | PushOptInfo (loopNum : Nat) (info : LcOptInfo)
  | SetLoopIterInfo (loopNum : Nat) (info : Option Nat)
  | EnsureConditions (loopNum : Nat)
  | PushCondition (loopNum : Nat) (cond : LC_Condition)
  | EnsureArrayDerefs (loopNum : Nat)
  | PushArrayDeref (loopNum : Nat) (array : LC_Array)
  | EnsureObjDerefs (loopNum : Nat)
  | PushObjDeref (loopNum : Nat) (ident : LC_Ident)
  | CancelLoopOptInfo (loopNum : Nat)
  | OptimizeConditions (loopNum : Nat)
  | DeriveBlockConditions (loopNum : Nat)
  deriving DecidableEq, Repr

/-- The context after one operation (`none`: the operation fails). -/
def Operation.apply (fill : Nat) (requiredBlocks : List LC_ArrayDeref → Nat) :
    Operation → LoopCloneContext → Option LoopCloneContext
  | Operation.EnsureLoopOptInfo loopNum, ctx => ctx.EnsureLoopOptInfo loopNum
  | Operation.PushOptInfo loopNum info, ctx =>
    (pushAt ctx.optInfo loopNum info).map (fun t => { ctx with optInfo := t })
  | Operation.SetLoopIterInfo loopNum info, ctx => ctx.SetLoopIterInfo loopNum info
  | Operation.EnsureConditions loopNum, ctx => ctx.EnsureConditions loopNum
  | Operation.PushCondition loopNum cond, ctx =>
    (pushAt ctx.conditions loopNum cond).map (fun t => { ctx with conditions := t })
  | Operation.EnsureArrayDerefs loopNum, ctx => ctx.EnsureArrayDerefs loopNum
  | Operation.PushArrayDeref loopNum array, ctx =>
    (pushAt ctx.arrayDerefs loopNum array).map (fun t => { ctx with arrayDerefs := t })
  | Operation.EnsureObjDerefs loopNum, ctx => ctx.EnsureObjDerefs loopNum
  | Operation.PushObjDeref loopNum ident, ctx =>
    (pushAt ctx.objDerefs loopNum ident).map (fun t => { ctx with objDerefs := t })
  | Operation.CancelLoopOptInfo loopNum, ctx => ctx.CancelLoopOptInfo loopNum
  | Operation.OptimizeConditions loopNum, ctx => ctx.OptimizeConditions fill loopNum
  | Operation.DeriveBlockConditions loopNum, ctx =>
    ctx.deriveBlockConditions fill requiredBlocks loopNum

end LoopCloneContext

/-! ## Allocation helper initialization (`src/coreclr/vm/jitinterfacegen.cpp`) -/

namespace VM

/-- The JIT helper numbers `InitJITHelpers1` assigns; every other entry of the
helper table is `other`. -/
inductive CorInfoHelpFunc where
  | CORINFO_HELP_NEWSFAST
  | CORINFO_HELP_NEWSFAST_ALIGN8
  | CORINFO_HELP_NEWARR_1_VC
  | CORINFO_HELP_NEWARR_1_OBJ
  | other (num : Nat)
  deriving DecidableEq, Repr

/-- The helper implementations `InitJITHelpers1` names; every other code
address is `other`. -/
inductive HelperCode where
  | JIT_NewS_MP_FastPortable
  | JIT_NewArr1VC_MP_FastPortable
  | JIT_NewArr1OBJ_MP_FastPortable
  | AllocateString_MP_FastPortable
  | JIT_TrialAllocSFastSP
  | JIT_NewArr1VC_UP
  | JIT_NewArr1OBJ_UP
  | AllocateStringFastUP
  | other (addr : Nat)
  deriving DecidableEq, Repr

/-- The state `InitJITHelpers1` acts on: the JIT helper table written by
`SetJitHelperFunction`, the implementation `ECall::DynamicallyAssignFCallImpl`
assigns to `ECall::FastAllocateString`, and whether
`g_WriteBarrierManager.Initialize()` has run. These three are declared outside
these sources and are modelled by what their names say. -/
structure EEState where
  hlpFuncTable : CorInfoHelpFunc → HelperCode
  fastAllocateString : HelperCode
  writeBarrierManagerInitialized : Bool

/-- The build flavour and the values the function reads from its environment. -/
structure Environment where
  /-- `TARGET_AMD64` is defined. -/
  targetAMD64 : Bool
  /-- `TARGET_UNIX` is defined. -/
  targetUnix : Bool
  /-- `_DEBUG` is defined. -/
  debug : Bool
  /-- The value of `g_SystemInfo.dwNumberOfProcessors`. -/
  dwNumberOfProcessors : Nat
  /-- The result of `TrackAllocationsEnabled()`. -/
  trackAllocationsEnabled : Bool
  /-- The result of `LoggingOn(LF_GCALLOC, LL_INFO10)`. -/
  loggingOnGCAlloc : Bool
  /-- The result of `g_pConfig->ShouldInjectFault(INJECTFAULT_GCHEAP)`. -/
  shouldInjectFaultGCHeap : Nat
  /-- The result of `GCHeapUtilities::UseThreadAllocationContexts()`. -/
  useThreadAllocationContexts : Bool
  deriving DecidableEq, Repr

/-- The call `SetJitHelperFunction(ftnNum, pFunc)`. -/
def SetJitHelperFunction (ftnNum : CorInfoHelpFunc) (pFunc : HelperCode) (s : EEState) :
    EEState :=
  { s with hlpFuncTable := fun h => if h = ftnNum then pFunc else s.hlpFuncTable h }

/-- The call
`ECall::DynamicallyAssignFCallImpl(GetEEFuncEntryPoint(impl), ECall::FastAllocateString)`. -/
def AssignFastAllocateString (impl : HelperCode) (s : EEState) : EEState :=
  { s with fastAllocateString := impl }

/-- The condition of the `if` in `InitJITHelpers1` before its negation:
allocations are observed. The fault-injection test is compiled in `_DEBUG`
builds only. -/
def allocationsObserved (env : Environment) : Bool :=
  env.trackAllocationsEnabled || env.loggingOnGCAlloc ||
    (env.debug && decide (env.shouldInjectFaultGCHeap ≠ 0))

/-- The five assignments of the multi-processor portable family. -/
def setPortableHelpers (s : EEState) : EEState :=
  AssignFastAllocateString HelperCode.AllocateString_MP_FastPortable
    (SetJitHelperFunction CorInfoHelpFunc.CORINFO_HELP_NEWARR_1_OBJ
      HelperCode.JIT_NewArr1OBJ_MP_FastPortable
      (SetJitHelperFunction CorInfoHelpFunc.CORINFO_HELP_NEWARR_1_VC
        HelperCode.JIT_NewArr1VC_MP_FastPortable
        (SetJitHelperFunction CorInfoHelpFunc.CORINFO_HELP_NEWSFAST_ALIGN8
          HelperCode.JIT_NewS_MP_FastPortable
          (SetJitHelperFunction CorInfoHelpFunc.CORINFO_HELP_NEWSFAST
            HelperCode.JIT_NewS_MP_FastPortable s))))

/-- The five assignments of the single-processor family. -/
def setSingleProcHelpers (s : EEState) : EEState :=
  AssignFastAllocateString HelperCode.AllocateStringFastUP
    (SetJitHelperFunction CorInfoHelpFunc.CORINFO_HELP_NEWARR_1_OBJ HelperCode.JIT_NewArr1OBJ_UP
      (SetJitHelperFunction CorInfoHelpFunc.CORINFO_HELP_NEWARR_1_VC HelperCode.JIT_NewArr1VC_UP
        (SetJitHelperFunction CorInfoHelpFunc.CORINFO_HELP_NEWSFAST_ALIGN8
          HelperCode.JIT_TrialAllocSFastSP
          (SetJitHelperFunction CorInfoHelpFunc.CORINFO_HELP_NEWSFAST
            HelperCode.JIT_TrialAllocSFastSP s))))

/-- The function `InitJITHelpers1` (compiled when `TARGET_X86` is not
defined). `none` is the failed
`_ASSERTE(g_SystemInfo.dwNumberOfProcessors != 0)` of a `_DEBUG` build. -/
def InitJITHelpers1 (env : Environment) (s : EEState) : Option EEState :=
  if env.debug ∧ env.dwNumberOfProcessors = 0 then none
  else if env.targetAMD64 then
    let s1 := { s with writeBarrierManagerInitialized := true }
    if !(allocationsObserved env) then
      if env.targetUnix then some (setPortableHelpers s1)
      else if env.useThreadAllocationContexts then some (setPortableHelpers s1)
      else some (setSingleProcHelpers s1)
    else some s1
  else some s

end VM

/-! ## Sample values -/

/-- The access `V01[V02][V03]` of a rank-2 array. -/
def sampleIndex : ArrIndex :=
  { arrLcl := 1, indLcls := [2, 3], bndsChks := [], rank := 2, useBlock := none }

/-- The length of the jagged access `V01[V02][V03]`. -/
def sampleJagged : LC_Array :=
  { type := ArrType.Jagged, arrIndex := sampleIndex, oper := OperType.ArrLen, dim := -1 }

/-- The same access recorded as a multi-dimensional one. -/
def sampleMdArray : LC_Array :=
  { type := ArrType.MdArray, arrIndex := sampleIndex, oper := OperType.ArrLen, dim := -1 }

/-- The condition `V01[V02][V03].Length >= 0`. -/
def sampleLengthCond : LC_Condition :=
  { op1 := LC_Expr.ofIdent (LC_Ident.CreateArrAccess sampleJagged),
    op2 := LC_Expr.ofIdent (LC_Ident.CreateConst 0),
    oper := genTreeOps.GT_GE, compareUnsigned := false }

/-- The condition `V04 < k`. -/
def sampleBoundCond (k : Nat) : LC_Condition :=
  { op1 := LC_Expr.ofIdent (LC_Ident.CreateVar 4),
    op2 := LC_Expr.ofIdent (LC_Ident.CreateConst k),
    oper := genTreeOps.GT_LT, compareUnsigned := false }

/-- A context of one loop with an empty candidate list and three conditions. -/
def sampleContext : LoopCloneContext :=
  { optInfo := [some []]
    conditions := [some [sampleLengthCond, sampleBoundCond 5, sampleBoundCond 7]]
    arrayDerefs := [none]
    objDerefs := [none]
    blockConditions := [none]
    iterInfo := [none] }

/-- The element node of `V01[V02, V03, V04]`, an array of rank 3. -/
def sampleArrElem : GenTreeArrElem :=
  { gtArrObj := 1, gtArrRank := 3, gtArrInds := [2, 3, 4] }

/-- The span access `span(V05)[V06]` checked by node 7 in block 8. -/
def sampleSpanIndex : SpanIndex :=
  { lenLcl := 5, indLcl := 6, bndsChk := some 7, useBlock := some 8 }

/-- The length of `V01[V02, ...]` for a rank-2 array of which only the first
index is recorded, built with the three-argument constructor (`dim = -1`). -/
def sampleShort : LC_Array :=
  LC_Array.new ArrType.MdArray
    { arrLcl := 1, indLcls := [2], bndsChks := [], rank := 2, useBlock := none } OperType.ArrLen

/-- A helper table whose entries are the slow helpers at address 0. -/
def sampleEEState : VM.EEState :=
  { hlpFuncTable := fun _ => VM.HelperCode.other 0
    fastAllocateString := VM.HelperCode.other 0
    writeBarrierManagerInitialized := false }

/-- A release build for Windows AMD64 on one processor, nothing observing
allocations, workstation GC without thread allocation contexts. -/
def sampleEnvironment : VM.Environment :=
  { targetAMD64 := true, targetUnix := false, debug := false, dwNumberOfProcessors := 1,
    trackAllocationsEnabled := false, loggingOnGCAlloc := false, shouldInjectFaultGCHeap := 0,
    useThreadAllocationContexts := false }

/-- The jagged access `V01[V02][k]`. -/
def sampleAccess (k : Nat) : LC_Array :=
  LC_Array.new ArrType.Jagged
    { arrLcl := 1, indLcls := [2, k], bndsChks := [], rank := 2, useBlock := none } OperType.None

theorem LC_Array.indicesLoop_eq_true (fill : Nat) (p q : List Nat) (n i : Nat) :
    LC_Array.indicesLoop fill p q i n = true ↔
      ∀ k, i ≤ k → k < i + n → indexAt fill p k = indexAt fill q k := by
  induction n generalizing i with
  | zero =>
    simp only [LC_Array.indicesLoop, true_iff]
    intro k h1 h2
    omega
  | succ n ih =>
    simp only [LC_Array.indicesLoop, ne_eq, ite_not]
    by_cases h : indexAt fill p i = indexAt fill q i
    · simp only [h, if_true, ih]
      constructor
      · intro hk k h1 h2
        rcases Nat.eq_or_lt_of_le h1 with rfl | h3
        · exact h
        · exact hk k h3 (by omega)
      · intro hk k h1 h2
        exact hk k (by omega) (by omega)
    · simp only [h, if_false]
      constructor
      · intro hf
        exact absurd hf (by simp)
      · intro hk
        exact absurd (hk i (le_refl i) (by omega)) h

theorem LC_Array.rank_lt_iff (r : Int) (k : Nat) : k < r.toNat ↔ (k : Int) < r := by
  omega

/-- Shared characterisation of `operator==` on valid operands. -/
theorem LC_Array.eq_valid (fill : Nat) (a b : LC_Array)
    (ha : a.type ≠ ArrType.Invalid) (hb : b.type ≠ ArrType.Invalid) :
    LC_Array.eq fill a b = some (decide (a.type = b.type ∧ a.arrIndex.arrLcl = b.arrIndex.arrLcl ∧
      a.oper = b.oper ∧ a.GetDimRank = b.GetDimRank ∧
      LC_Array.indicesLoop fill a.arrIndex.indLcls b.arrIndex.indLcls 0 a.GetDimRank.toNat = true)) := by
  unfold LC_Array.eq
  simp only [ha, hb, or_self, if_false]
  by_cases h1 : a.type = b.type
  · by_cases h2 : a.arrIndex.arrLcl = b.arrIndex.arrLcl
    · by_cases h3 : a.oper = b.oper
      · by_cases h4 : a.GetDimRank = b.GetDimRank
        · simp [h1, h2, h3, h4]
        · simp [h1, h2, h3, h4]
      · simp [h1, h2, h3]
    · simp [h1, h2]
  · simp [h1]

/-- C1: for `LC_Array` values whose kind is not `Invalid`, `a == b` returns a
boolean, and it is true exactly when `a` and `b` have the same kind, the same
base array slot, the same operator, the same effective dimension
`r = GetDimRank()` and equal index slots at every position `0..r-1`. -/
theorem LC_Array.eq_iff_structural (fill : Nat) (a b : LC_Array)
    (ha : a.type ≠ ArrType.Invalid) (hb : b.type ≠ ArrType.Invalid) :
    (∃ r, LC_Array.eq fill a b = some r) ∧
    (LC_Array.eq fill a b = some true ↔
      a.type = b.type ∧ a.arrIndex.arrLcl = b.arrIndex.arrLcl ∧ a.oper = b.oper ∧
      a.GetDimRank = b.GetDimRank ∧
      ∀ i : Nat, (i : Int) < a.GetDimRank →
        indexAt fill a.arrIndex.indLcls i = indexAt fill b.arrIndex.indLcls i) := by
  refine ⟨⟨_, LC_Array.eq_valid fill a b ha hb⟩, ?_⟩
  rw [LC_Array.eq_valid fill a b ha hb]
  simp only [Option.some.injEq, decide_eq_true_eq, LC_Array.indicesLoop_eq_true, Nat.zero_le,
    true_implies, Nat.zero_add, LC_Array.rank_lt_iff]

/-- Reflexivity of `LC_Array::operator==` on a valid kind (shared). -/
theorem LC_Array.eq_self_of_valid (fill : Nat) (a : LC_Array) (ha : a.type ≠ ArrType.Invalid) :
    LC_Array.eq fill a a = some true := by
  rw [LC_Array.eq_valid fill a a ha ha]
  simp [LC_Array.indicesLoop_eq_true]

theorem LC_Array.eq_iff_structural_witness :
    sampleJagged.type ≠ ArrType.Invalid ∧
    ((∃ r, LC_Array.eq 0 sampleJagged sampleJagged = some r) ∧
     (LC_Array.eq 0 sampleJagged sampleJagged = some true ↔
      sampleJagged.type = sampleJagged.type ∧
      sampleJagged.arrIndex.arrLcl = sampleJagged.arrIndex.arrLcl ∧
      sampleJagged.oper = sampleJagged.oper ∧
      sampleJagged.GetDimRank = sampleJagged.GetDimRank ∧
      ∀ i : Nat, (i : Int) < sampleJagged.GetDimRank →
        indexAt 0 sampleJagged.arrIndex.indLcls i = indexAt 0 sampleJagged.arrIndex.indLcls i)) :=
  ⟨by decide, LC_Array.eq_iff_structural 0 sampleJagged sampleJagged (by decide) (by decide)⟩

/-- C9, as stated, fails: a jagged and a multi-dimensional `LC_Array` over the
same access `V01[V02][V03]` meet the four-part criterion (same base slot, same
effective rank, same index slots up to the rank, same operator), yet `==`
returns false. -/
theorem LC_Array.eq_not_iff_fourPart :
    ¬ (LC_Array.eq 0 sampleJagged sampleMdArray = some true ↔
        LC_Array.FourPart 0 sampleJagged sampleMdArray) := by
  intro h
  have hfour : LC_Array.FourPart 0 sampleJagged sampleMdArray :=
    ⟨rfl, rfl, fun _ _ => rfl, rfl⟩
  have htrue := h.2 hfour
  revert htrue
  decide

/-- C9, amended: for valid `LC_Array` values, `a == b` is true exactly when
`a` and `b` have the same kind and meet the four-part criterion: same base
slot, same effective dimension rank, same index-slot sequence up to that rank,
same length-operator. -/
theorem LC_Array.eq_iff_kind_and_fourPart (fill : Nat) (a b : LC_Array)
    (ha : a.type ≠ ArrType.Invalid) (hb : b.type ≠ ArrType.Invalid) :
    LC_Array.eq fill a b = some true ↔ a.type = b.type ∧ LC_Array.FourPart fill a b := by
  rw [LC_Array.eq_valid fill a b ha hb]
  simp only [Option.some.injEq, decide_eq_true_eq, LC_Array.indicesLoop_eq_true, Nat.zero_le,
    true_implies, Nat.zero_add, LC_Array.rank_lt_iff, LC_Array.FourPart]
  constructor
  · rintro ⟨h1, h2, h3, h4, h5⟩
    exact ⟨h1, h2, h4, h5, h3⟩
  · rintro ⟨h1, h2, h4, h5, h3⟩
    exact ⟨h1, h2, h3, h4, h5⟩

theorem LC_Array.eq_iff_kind_and_fourPart_witness :
    sampleJagged.type ≠ ArrType.Invalid ∧ sampleMdArray.type ≠ ArrType.Invalid ∧
    (LC_Array.eq 0 sampleJagged sampleMdArray = some true ↔
      sampleJagged.type = sampleMdArray.type ∧ LC_Array.FourPart 0 sampleJagged sampleMdArray) :=
  ⟨by decide, by decide,
   LC_Array.eq_iff_kind_and_fourPart 0 sampleJagged sampleMdArray (by decide) (by decide)⟩

/-- C10: `LC_Array` equality is reflexive: for every `LC_Array` whose kind is
not `Invalid`, `a == a` is true. -/
theorem LC_Array.eq_refl (fill : Nat) (a : LC_Array) (ha : a.type ≠ ArrType.Invalid) :
    LC_Array.eq fill a a = some true :=
  LC_Array.eq_self_of_valid fill a ha

theorem LC_Array.eq_refl_witness :
    sampleMdArray.type ≠ ArrType.Invalid ∧ LC_Array.eq 0 sampleMdArray sampleMdArray = some true :=
  ⟨by decide, LC_Array.eq_refl 0 sampleMdArray (by decide)⟩

/-! ## Facts about `LC_Ident::operator==` and `LC_Expr::operator==` -/

theorem LC_Span.eq_eq_some_true (a b : LC_Span) :
    LC_Span.eq a b = some true ↔
      ∃ s t, a.spanIndex = some s ∧ b.spanIndex = some t ∧ s.lenLcl = t.lenLcl ∧
        s.indLcl = t.indLcl := by
  rcases a with ⟨_ | s⟩ <;> rcases b with ⟨_ | t⟩ <;> simp [LC_Span.eq]

theorem LC_Ident.eq_of_type_ne (fill : Nat) (a b : LC_Ident) (h : a.type ≠ b.type) :
    LC_Ident.eq fill a b = some false := by
  simp [LC_Ident.eq, h]

theorem LC_Ident.eq_true_iff (fill : Nat) (a b : LC_Ident) :
    LC_Ident.eq fill a b = some true ↔ a.type = b.type ∧ LC_Ident.SamePayload fill a b := by
  cases a <;> cases b <;> simp [LC_Ident.eq, LC_Ident.type, LC_Ident.SamePayload]

/-- C2: `a == b` is true exactly when the tags are equal and the payload of
that tag is equal (constants; slot ids; slot ids and byte offsets; `LC_Array`
equality; `LC_Span` equality; always for `Null`; handles; addresses), and two
idents with different tags compare unequal. This holds for all idents, in
particular for those whose tags are not `Invalid`. -/
theorem LC_Ident.eq_iff_tag_and_payload (fill : Nat) (a b : LC_Ident) :
    (LC_Ident.eq fill a b = some true ↔ a.type = b.type ∧ LC_Ident.SamePayload fill a b) ∧
    (a.type ≠ b.type → LC_Ident.eq fill a b = some false) :=
  ⟨LC_Ident.eq_true_iff fill a b, LC_Ident.eq_of_type_ne fill a b⟩

theorem LC_Ident.eq_iff_tag_and_payload_witness :
    LC_Ident.eq 0 (LC_Ident.CreateConst 1) (LC_Ident.CreateVar 1) = some false ∧
    LC_Ident.eq 0 (LC_Ident.CreateIndirOfLocal 3 8) (LC_Ident.CreateIndirOfLocal 3 8) = some true :=
  ⟨(LC_Ident.eq_iff_tag_and_payload 0 (LC_Ident.CreateConst 1) (LC_Ident.CreateVar 1)).2
      (by decide),
   (LC_Ident.eq_iff_tag_and_payload 0 (LC_Ident.CreateIndirOfLocal 3 8)
      (LC_Ident.CreateIndirOfLocal 3 8)).1.2 ⟨rfl, rfl, rfl⟩⟩

theorem LC_Span.eq_self_of_isSome (s : LC_Span) (h : s.spanIndex.isSome = true) :
    LC_Span.eq s s = some true := by
  rcases s with ⟨_ | t⟩
  · simp at h
  · simp [LC_Span.eq]

theorem LC_Ident.ident_eq_self_of_isValid (fill : Nat) (a : LC_Ident) (h : a.isValid = true) :
    LC_Ident.eq fill a a = some true := by
  cases a with
  | Invalid => simp [LC_Ident.isValid] at h
  | ArrAccess x =>
    have hx : x.type ≠ ArrType.Invalid := by simpa [LC_Ident.isValid] using h
    simp [LC_Ident.eq, LC_Array.eq_self_of_valid fill x hx]
  | SpanAccess x =>
    have hx : x.spanIndex.isSome = true := by simpa [LC_Ident.isValid] using h
    simp [LC_Ident.eq, LC_Span.eq_self_of_isSome x hx]
  | _ => simp [LC_Ident.eq]

theorem LC_Expr.expr_eq_self_of_isValid (fill : Nat) (e : LC_Expr) (h : e.isValid = true) :
    LC_Expr.eq fill e e = some true := by
  simp only [LC_Expr.isValid, Bool.and_eq_true, decide_eq_true_eq] at h
  simp [LC_Expr.eq, h.1, LC_Ident.ident_eq_self_of_isValid fill e.ident h.2]

/-! ## Static evaluation of conditions -/

/-- C3: for every valid expression `X` and either value of the
unsigned-compare flag, `Evaluates` on the condition `X < X` returns true and
sets the result to false, whatever the result held before. -/
theorem LC_Condition.Evaluates_self_lt (fill : Nat) (X : LC_Expr) (asUnsigned pResult : Bool)
    (hX : X.isValid = true) :
    LC_Condition.Evaluates fill
      { op1 := X, op2 := X, oper := genTreeOps.GT_LT, compareUnsigned := asUnsigned } pResult
      = some (true, false) := by
  have hrefl : LC_Expr.eq fill X X = some true := LC_Expr.expr_eq_self_of_isValid fill X hX
  unfold LC_Condition.Evaluates
  simp only [LC_Condition.isStrict, if_true]
  rw [hrefl]

theorem LC_Condition.Evaluates_self_lt_witness :
    (LC_Expr.ofIdent (LC_Ident.CreateVar 2)).isValid = true ∧
    LC_Condition.Evaluates 0
      { op1 := LC_Expr.ofIdent (LC_Ident.CreateVar 2), op2 := LC_Expr.ofIdent (LC_Ident.CreateVar 2),
        oper := genTreeOps.GT_LT, compareUnsigned := false } true = some (true, false) :=
  ⟨by decide,
   LC_Condition.Evaluates_self_lt 0 (LC_Expr.ofIdent (LC_Ident.CreateVar 2)) false true (by decide)⟩

/-- C4: for every array-length or span-length expression `L` and either value
of the unsigned-compare flag, `Evaluates` on the condition `L >= 0` (right
operand the constant 0) returns true and sets the result to true. -/
theorem LC_Condition.Evaluates_length_ge_zero (fill : Nat) (L : LC_Expr)
    (asUnsigned pResult : Bool) (hL : L.isLength = true) :
    LC_Condition.Evaluates fill
      { op1 := L, op2 := LC_Expr.ofIdent (LC_Ident.CreateConst 0), oper := genTreeOps.GT_GE,
        compareUnsigned := asUnsigned } pResult
      = some (true, true) := by
  simp [LC_Condition.Evaluates, LC_Condition.isStrict, hL, LC_Expr.constValue, LC_Expr.ofIdent,
    LC_Ident.CreateConst]

theorem LC_Condition.Evaluates_length_ge_zero_witness :
    (LC_Expr.ofIdent (LC_Ident.CreateArrAccess
      { type := ArrType.Jagged, oper := OperType.ArrLen, dim := -1,
        arrIndex := { arrLcl := 1, indLcls := [2], bndsChks := [], rank := 1,
                      useBlock := none } })).isLength = true ∧
    LC_Condition.Evaluates 0
      { op1 := LC_Expr.ofIdent (LC_Ident.CreateArrAccess
          { type := ArrType.Jagged, oper := OperType.ArrLen, dim := -1,
            arrIndex := { arrLcl := 1, indLcls := [2], bndsChks := [], rank := 1,
                          useBlock := none } }),
        op2 := LC_Expr.ofIdent (LC_Ident.CreateConst 0), oper := genTreeOps.GT_GE,
        compareUnsigned := true } false = some (true, true) :=
  ⟨by decide,
   LC_Condition.Evaluates_length_ge_zero 0
     (LC_Expr.ofIdent (LC_Ident.CreateArrAccess
       { type := ArrType.Jagged, oper := OperType.ArrLen, dim := -1,
         arrIndex := { arrLcl := 1, indLcls := [2], bndsChks := [], rank := 1,
                       useBlock := none } })) true false (by decide)⟩

/-! ## Soundness of combination -/

theorem LC_Expr.eval_of_constValue (ρ : LC_Ident → Nat) (e : LC_Expr) (k : Nat)
    (h : e.constValue = some k) : e.eval ρ = k := by
  rcases e with ⟨i, t⟩
  cases t <;> cases i <;> simp_all [LC_Expr.constValue, LC_Expr.eval]

theorem LC_Expr.eval_congr (fill : Nat) (ρ : LC_Ident → Nat) (hρ : Respects fill ρ)
    (e1 e2 : LC_Expr) (h : LC_Expr.eq fill e1 e2 = some true) : e1.eval ρ = e2.eval ρ := by
  have hi : LC_Ident.eq fill e1.ident e2.ident = some true := by
    unfold LC_Expr.eq at h
    split at h
    · simp at h
    · split at h
      · simp at h
      · exact h
  have hv := hρ _ _ hi
  rcases (LC_Ident.eq_true_iff fill _ _).1 hi with ⟨_, hp⟩
  rcases e1 with ⟨i1, t1⟩
  rcases e2 with ⟨i2, t2⟩
  cases i1 <;> cases i2 <;>
    simp_all [LC_Expr.eval, LC_Ident.SamePayload]

theorem LC_Condition.tighter_true (oper : genTreeOps) (u : Bool) (k1 k2 : Nat) (x : Int)
    (h : LC_Condition.tighter oper u k1 k2 = true)
    (hx : oper.rel x (LC_Condition.operandValue u k1)) :
    oper.rel x (LC_Condition.operandValue u k2) := by
  cases oper <;> simp only [LC_Condition.tighter, decide_eq_true_eq, genTreeOps.rel] at * <;> omega

theorem LC_Condition.tighter_false (oper : genTreeOps) (u : Bool) (k1 k2 : Nat) (x : Int)
    (h : LC_Condition.tighter oper u k1 k2 = false)
    (hx : oper.rel x (LC_Condition.operandValue u k2)) :
    oper.rel x (LC_Condition.operandValue u k1) := by
  cases oper <;> simp only [LC_Condition.tighter, decide_eq_false_iff_not, genTreeOps.rel] at * <;>
    omega

/-- C5: whenever `c1.Combines(c2, &merged)` returns true, the merged
condition is at least as tight as both inputs: under every assignment of
runtime values to the symbolic operands (equal operands receiving equal
values), the merged condition holding implies that `c1` holds and that `c2`
holds. -/
theorem LC_Condition.Combines_sound (fill : Nat) (c1 c2 merged : LC_Condition)
    (ρ : LC_Ident → Nat) (hρ : Respects fill ρ)
    (h : LC_Condition.Combines fill c1 c2 = some (some merged))
    (hm : merged.Holds ρ) : c1.Holds ρ ∧ c2.Holds ρ := by
  unfold LC_Condition.Combines at h
  split at h
  · simp at h
  · simp at h
  · rename_i hop1
    have e1 := LC_Expr.eval_congr fill ρ hρ _ _ hop1
    split at h
    · simp at h
    · rename_i hsame
      simp only [ne_eq, not_or, not_not] at hsame
      obtain ⟨hoper, hflag⟩ := hsame
      split at h
      · rename_i k1 k2 hk1 hk2
        have v1 := LC_Expr.eval_of_constValue ρ _ _ hk1
        have v2 := LC_Expr.eval_of_constValue ρ _ _ hk2
        simp only [Option.some.injEq] at h
        by_cases ht : LC_Condition.tighter c1.oper c1.compareUnsigned k1 k2 = true
        · rw [if_pos ht] at h
          subst h
          refine ⟨hm, ?_⟩
          unfold LC_Condition.Holds at hm ⊢
          rw [← hoper, ← hflag, ← e1, v2]
          rw [v1] at hm
          exact LC_Condition.tighter_true _ _ _ _ _ ht hm
        · rw [if_neg ht] at h
          subst h
          refine ⟨?_, hm⟩
          unfold LC_Condition.Holds at hm ⊢
          rw [hoper, hflag, e1, v1]
          rw [v2] at hm
          have ht2 : LC_Condition.tighter c2.oper c2.compareUnsigned k1 k2 = false := by
            rw [← hoper, ← hflag]
            simpa using ht
          exact LC_Condition.tighter_false _ _ _ _ _ ht2 hm
      · split at h
        · simp at h
        · rename_i hop2
          have e2 := LC_Expr.eval_congr fill ρ hρ _ _ hop2
          simp only [Option.some.injEq] at h
          subst h
          refine ⟨hm, ?_⟩
          unfold LC_Condition.Holds at hm ⊢
          rw [← hoper, ← hflag, ← e1, ← e2]
          exact hm
        · simp at h

theorem LC_Condition.Combines_sound_witness :
    Respects 0 (fun _ => 3) ∧
    LC_Condition.Combines 0
      { op1 := LC_Expr.ofIdent (LC_Ident.CreateVar 1), op2 := LC_Expr.ofIdent (LC_Ident.CreateConst 5),
        oper := genTreeOps.GT_LT, compareUnsigned := false }
      { op1 := LC_Expr.ofIdent (LC_Ident.CreateVar 1), op2 := LC_Expr.ofIdent (LC_Ident.CreateConst 7),
        oper := genTreeOps.GT_LT, compareUnsigned := false }
      = some (some
        { op1 := LC_Expr.ofIdent (LC_Ident.CreateVar 1),
          op2 := LC_Expr.ofIdent (LC_Ident.CreateConst 5),
          oper := genTreeOps.GT_LT, compareUnsigned := false }) ∧
    (LC_Condition.Holds (fun _ => 3)
      { op1 := LC_Expr.ofIdent (LC_Ident.CreateVar 1), op2 := LC_Expr.ofIdent (LC_Ident.CreateConst 5),
        oper := genTreeOps.GT_LT, compareUnsigned := false } ∧
     LC_Condition.Holds (fun _ => 3)
      { op1 := LC_Expr.ofIdent (LC_Ident.CreateVar 1), op2 := LC_Expr.ofIdent (LC_Ident.CreateConst 7),
        oper := genTreeOps.GT_LT, compareUnsigned := false }) :=
  ⟨fun _ _ _ => rfl, by decide,
   LC_Condition.Combines_sound 0 _ _ _ (fun _ => 3) (fun _ _ _ => rfl)
     (by decide :
       LC_Condition.Combines 0
        { op1 := LC_Expr.ofIdent (LC_Ident.CreateVar 1),
          op2 := LC_Expr.ofIdent (LC_Ident.CreateConst 5),
          oper := genTreeOps.GT_LT, compareUnsigned := false }
        { op1 := LC_Expr.ofIdent (LC_Ident.CreateVar 1),
          op2 := LC_Expr.ofIdent (LC_Ident.CreateConst 7),
          oper := genTreeOps.GT_LT, compareUnsigned := false }
        = some (some
          { op1 := LC_Expr.ofIdent (LC_Ident.CreateVar 1),
            op2 := LC_Expr.ofIdent (LC_Ident.CreateConst 5),
            oper := genTreeOps.GT_LT, compareUnsigned := false }))
     (by
       simp [LC_Condition.Holds, genTreeOps.rel, LC_Condition.operandValue, toInt32,
         LC_Expr.eval, LC_Expr.ofIdent, LC_Ident.CreateVar, LC_Ident.CreateConst])⟩

/-! ## Comparisons of valid operands return -/

theorem LC_Ident.ident_eq_isSome_of_isValid (fill : Nat) (a b : LC_Ident)
    (ha : a.isValid = true) (hb : b.isValid = true) : ∃ r, LC_Ident.eq fill a b = some r := by
  cases a <;> cases b <;> first
    | exact ⟨_, rfl⟩
    | (simp [LC_Ident.isValid] at ha; done)
    | (simp [LC_Ident.isValid] at hb; done)
    | skip
  · rename_i x y
    have hx : x.type ≠ ArrType.Invalid := by simpa [LC_Ident.isValid] using ha
    have hy : y.type ≠ ArrType.Invalid := by simpa [LC_Ident.isValid] using hb
    exact ⟨_, by simpa [LC_Ident.eq, LC_Ident.type] using LC_Array.eq_valid fill x y hx hy⟩
  · rename_i x y
    rcases x with ⟨_ | s⟩ <;> rcases y with ⟨_ | t⟩ <;>
      simp_all [LC_Span.eq, LC_Ident.isValid, LC_Ident.eq, LC_Ident.type]

theorem LC_Expr.expr_eq_isSome_of_isValid (fill : Nat) (e1 e2 : LC_Expr)
    (h1 : e1.isValid = true) (h2 : e2.isValid = true) : ∃ r, LC_Expr.eq fill e1 e2 = some r := by
  simp only [LC_Expr.isValid, Bool.and_eq_true, decide_eq_true_eq] at h1 h2
  obtain ⟨r, hr⟩ := LC_Ident.ident_eq_isSome_of_isValid fill e1.ident e2.ident h1.2 h2.2
  exact ⟨r, by simp [LC_Expr.eq, h1.1, h2.1, hr]⟩

theorem LC_Condition.Evaluates_isSome_of_isValid (fill : Nat) (c : LC_Condition) (r : Bool)
    (h : c.isValid = true) : ∃ v, c.Evaluates fill r = some v := by
  simp only [LC_Condition.isValid, Bool.and_eq_true] at h
  obtain ⟨b, hb⟩ := LC_Expr.expr_eq_isSome_of_isValid fill c.op1 c.op2 h.1 h.2
  unfold LC_Condition.Evaluates
  split
  · rw [hb]
    cases b <;> exact ⟨_, rfl⟩
  · split <;> exact ⟨_, rfl⟩

/-- The outcome of `Evaluates` when it returns true does not depend on the
value behind `pResult` on entry. -/
theorem LC_Condition.staticValue_eq_some_iff (fill : Nat) (c : LC_Condition) (b : Bool) :
    c.staticValue fill = some (some b) ↔ ∀ r, c.Evaluates fill r = some (true, b) := by
  unfold LC_Condition.staticValue LC_Condition.Evaluates
  constructor
  · intro h r
    split at h
    · split at h <;> simp_all
    · split at h <;> simp_all
  · intro h
    have h0 := h false
    split at h0
    · split at h0 <;> simp_all
    · split at h0 <;> simp_all

theorem LC_Condition.staticValue_isSome_of_isValid (fill : Nat) (c : LC_Condition)
    (h : c.isValid = true) : ∃ v, c.staticValue fill = some v := by
  obtain ⟨v, hv⟩ := LC_Condition.Evaluates_isSome_of_isValid fill c false h
  refine ⟨(if v.1 then some v.2 else none), ?_⟩
  simp [LC_Condition.staticValue, hv]

/-! ## `EvaluateConditions` -/

theorem LoopCloneContext.evaluateLoop_isSome (fill : Nat) (conds : List LC_Condition)
    (h : ∀ c ∈ conds, c.isValid = true) (allTrue anyFalse : Bool) :
    ∃ v, LoopCloneContext.evaluateLoop fill conds allTrue anyFalse = some v := by
  induction conds generalizing allTrue anyFalse with
  | nil => exact ⟨_, rfl⟩
  | cons c cs ih =>
    obtain ⟨v, hv⟩ := LC_Condition.staticValue_isSome_of_isValid fill c (h c (by simp))
    have ih1 := ih (fun d hd => h d (by simp [hd]))
    unfold LoopCloneContext.evaluateLoop
    rw [hv]
    rcases v with _ | b
    · exact ih1 _ _
    · cases b
      · exact ih1 _ _
      · exact ih1 _ _

theorem LoopCloneContext.evaluateLoop_flags (fill : Nat) (conds : List LC_Condition)
    (allTrue0 anyFalse0 allTrue anyFalse : Bool)
    (h : LoopCloneContext.evaluateLoop fill conds allTrue0 anyFalse0 = some (allTrue, anyFalse)) :
    (allTrue = true ↔ allTrue0 = true ∧ ∀ c ∈ conds, c.staticValue fill = some (some true)) ∧
    (anyFalse = true ↔ anyFalse0 = true ∨ ∃ c ∈ conds, c.staticValue fill = some (some false)) := by
  induction conds generalizing allTrue0 anyFalse0 with
  | nil =>
    simp only [LoopCloneContext.evaluateLoop, Option.some.injEq, Prod.mk.injEq] at h
    simp [h.1, h.2]
  | cons c cs ih =>
    unfold LoopCloneContext.evaluateLoop at h
    split at h
    · simp at h
    · rename_i hc
      have := ih _ _ h
      simp [hc, this]
    · rename_i hc
      have := ih _ _ h
      simp [hc, this]
    · rename_i hc
      have := ih _ _ h
      simp [hc, this]

/-- C6: for a loop with a condition list, `EvaluateConditions` returns (it
does whenever the operands of the conditions are valid), `allTrue` is true if
and only if every condition of the list statically evaluates to true,
`anyFalse` is true if and only if at least one statically evaluates to false,
and the two flags are never both true. -/
theorem LoopCloneContext.EvaluateConditions_flags (fill : Nat) (ctx : LoopCloneContext)
    (loopNum : Nat) (conds : List LC_Condition)
    (hconds : ctx.conditions.getD loopNum none = some conds) :
    ((∀ c ∈ conds, c.isValid = true) →
      ∃ v, LoopCloneContext.EvaluateConditions fill ctx loopNum = some v) ∧
    ∀ allTrue anyFalse,
      LoopCloneContext.EvaluateConditions fill ctx loopNum = some (allTrue, anyFalse) →
      (allTrue = true ↔ ∀ c ∈ conds, ∀ r, c.Evaluates fill r = some (true, true)) ∧
      (anyFalse = true ↔ ∃ c ∈ conds, ∀ r, c.Evaluates fill r = some (true, false)) ∧
      ¬ (allTrue = true ∧ anyFalse = true) := by
  unfold LoopCloneContext.EvaluateConditions
  rw [hconds]
  refine ⟨fun hv => LoopCloneContext.evaluateLoop_isSome fill conds hv true false, ?_⟩
  intro allTrue anyFalse h
  obtain ⟨h1, h2⟩ := LoopCloneContext.evaluateLoop_flags fill conds true false allTrue anyFalse h
  simp only [true_and, Bool.false_eq_true, false_or,
    LC_Condition.staticValue_eq_some_iff] at h1 h2
  refine ⟨h1, h2, ?_⟩
  rintro ⟨ha, hf⟩
  obtain ⟨c, hc, hcf⟩ := h2.1 hf
  have t := h1.1 ha c hc false
  rw [hcf false] at t
  simp at t

theorem LoopCloneContext.EvaluateConditions_flags_witness :
    sampleContext.conditions.getD 0 none
      = some [sampleLengthCond, sampleBoundCond 5, sampleBoundCond 7] ∧
    (∃ v, LoopCloneContext.EvaluateConditions 0 sampleContext 0 = some v) ∧
    ((false = true ↔ ∀ c ∈ [sampleLengthCond, sampleBoundCond 5, sampleBoundCond 7],
        ∀ r, c.Evaluates 0 r = some (true, true)) ∧
     (false = true ↔ ∃ c ∈ [sampleLengthCond, sampleBoundCond 5, sampleBoundCond 7],
        ∀ r, c.Evaluates 0 r = some (true, false)) ∧
     ¬ (false = true ∧ false = true)) :=
  ⟨rfl,
   (LoopCloneContext.EvaluateConditions_flags 0 sampleContext 0
      [sampleLengthCond, sampleBoundCond 5, sampleBoundCond 7] rfl).1 (by decide),
   (LoopCloneContext.EvaluateConditions_flags 0 sampleContext 0
      [sampleLengthCond, sampleBoundCond 5, sampleBoundCond 7] rfl).2 false false (by decide)⟩

/-! ## `CancelLoopOptInfo` -/

theorem LoopCloneContext.CancelLoopOptInfo_eq (ctx : LoopCloneContext) (loopNum : Nat)
    (h1 : loopNum < ctx.optInfo.length) (h2 : loopNum < ctx.conditions.length) :
    ctx.CancelLoopOptInfo loopNum = some { ctx with
      optInfo := ctx.optInfo.set loopNum none
      conditions :=
        ctx.conditions.set loopNum ((ctx.conditions.getD loopNum none).map (fun _ => [])) } := by
  simp [LoopCloneContext.CancelLoopOptInfo, h1, h2]

theorem LoopCloneContext.CancelLoopOptInfo_twice (ctx ctx1 : LoopCloneContext) (loopNum : Nat)
    (h : ctx.CancelLoopOptInfo loopNum = some ctx1) :
    ctx1.CancelLoopOptInfo loopNum = some ctx1 := by
  unfold LoopCloneContext.CancelLoopOptInfo at h
  split at h
  · rename_i hlt
    simp only [Option.some.injEq] at h
    subst h
    rw [LoopCloneContext.CancelLoopOptInfo_eq _ _ (by simpa using hlt.1) (by simpa using hlt.2)]
    simp only [List.set_set, List.getD_eq_getElem?_getD, List.getElem?_set_self hlt.2,
      Option.getD_some, Option.map_map]
    rfl
  · simp at h

/-- C8: for a loop id of the tables, `CancelLoopOptInfo` leaves the loop's
candidate list null and its condition list, if any, empty (a null condition
list stays null); calling it again changes nothing; and the slots of every
other loop, as well as the four other tables, are unchanged. -/
theorem LoopCloneContext.CancelLoopOptInfo_spec (ctx : LoopCloneContext) (loopNum : Nat)
    (h1 : loopNum < ctx.optInfo.length) (h2 : loopNum < ctx.conditions.length) :
    ∃ ctx1, ctx.CancelLoopOptInfo loopNum = some ctx1 ∧
      ctx1.optInfo[loopNum]? = some none ∧
      (∀ conds, ctx.conditions[loopNum]? = some (some conds) →
        ctx1.conditions[loopNum]? = some (some [])) ∧
      (ctx.conditions[loopNum]? = some none → ctx1.conditions[loopNum]? = some none) ∧
      ctx1.CancelLoopOptInfo loopNum = some ctx1 ∧
      (∀ m, m ≠ loopNum →
        ctx1.optInfo[m]? = ctx.optInfo[m]? ∧ ctx1.conditions[m]? = ctx.conditions[m]?) ∧
      ctx1.optInfo.length = ctx.optInfo.length ∧
      ctx1.conditions.length = ctx.conditions.length ∧
      ctx1.arrayDerefs = ctx.arrayDerefs ∧ ctx1.objDerefs = ctx.objDerefs ∧
      ctx1.blockConditions = ctx.blockConditions ∧ ctx1.iterInfo = ctx.iterInfo := by
  refine ⟨_, LoopCloneContext.CancelLoopOptInfo_eq ctx loopNum h1 h2, ?_, ?_, ?_,
    LoopCloneContext.CancelLoopOptInfo_twice ctx _ loopNum
      (LoopCloneContext.CancelLoopOptInfo_eq ctx loopNum h1 h2), ?_, ?_, ?_, rfl, rfl, rfl, rfl⟩
  · simp [h1]
  · intro conds hc
    simp [h2, List.getD_eq_getElem?_getD, hc]
  · intro hc
    simp [h2, List.getD_eq_getElem?_getD, hc]
  · intro m hm
    exact ⟨List.getElem?_set_ne (Ne.symm hm), List.getElem?_set_ne (Ne.symm hm)⟩
  · simp
  · simp

theorem LoopCloneContext.CancelLoopOptInfo_spec_witness :
    0 < sampleContext.optInfo.length ∧ 0 < sampleContext.conditions.length ∧
    sampleContext.CancelLoopOptInfo 0 =
      some { sampleContext with optInfo := [none], conditions := [some []] } ∧
    ∃ ctx1, sampleContext.CancelLoopOptInfo 0 = some ctx1 ∧
      ctx1.optInfo[0]? = some none ∧
      (∀ conds, sampleContext.conditions[0]? = some (some conds) →
        ctx1.conditions[0]? = some (some [])) ∧
      (sampleContext.conditions[0]? = some none → ctx1.conditions[0]? = some none) ∧
      ctx1.CancelLoopOptInfo 0 = some ctx1 ∧
      (∀ m, m ≠ 0 →
        ctx1.optInfo[m]? = sampleContext.optInfo[m]? ∧
        ctx1.conditions[m]? = sampleContext.conditions[m]?) ∧
      ctx1.optInfo.length = sampleContext.optInfo.length ∧
      ctx1.conditions.length = sampleContext.conditions.length ∧
      ctx1.arrayDerefs = sampleContext.arrayDerefs ∧ ctx1.objDerefs = sampleContext.objDerefs ∧
      ctx1.blockConditions = sampleContext.blockConditions ∧
      ctx1.iterInfo = sampleContext.iterInfo :=
  ⟨by decide, by decide, by decide,
   LoopCloneContext.CancelLoopOptInfo_spec sampleContext 0 (by decide) (by decide)⟩

/-! ## `OptimizeConditions` -/

theorem LoopCloneContext.combineInto_none_iff (fill : Nat) (c : LC_Condition)
    (ds : List LC_Condition) :
    LoopCloneContext.combineInto fill c ds = some none ↔
      ∀ d ∈ ds, c.Combines fill d = some none := by
  induction ds with
  | nil => simp [LoopCloneContext.combineInto]
  | cons d ds ih =>
    unfold LoopCloneContext.combineInto
    split
    · rename_i h
      simp [h]
    · rename_i m h
      simp [h]
    · rename_i h
      split
      · rename_i h2
        simp only [h2, false_iff, reduceCtorEq] at ih ⊢
        intro hall
        exact ih (fun e he => hall e (by simp [he]))
      · rename_i h2
        simp only [true_iff] at ih ⊢
        intro e he
        rcases List.mem_cons.1 he with rfl | he
        · exact h
        · exact (ih.1 h2) e he
      · rename_i m rest h2
        simp only [h2, false_iff, reduceCtorEq, Option.some.injEq] at ih ⊢
        intro hall
        exact ih (fun e he => hall e (by simp [he]))

theorem LoopCloneContext.combineStep_none_iff (fill : Nat) (l : List LC_Condition) :
    LoopCloneContext.combineStep fill l = some none ↔
      l.Pairwise (fun c d => c.Combines fill d = some none) := by
  induction l with
  | nil => simp [LoopCloneContext.combineStep]
  | cons c cs ih =>
    rw [List.pairwise_cons, ← ih, ← LoopCloneContext.combineInto_none_iff]
    simp only [LoopCloneContext.combineStep]
    rcases h : LoopCloneContext.combineInto fill c cs with _ | _ | ⟨m, rest⟩ <;>
      rcases h2 : LoopCloneContext.combineStep fill cs with _ | _ | cs1 <;> simp

theorem LoopCloneContext.combineInto_length (fill : Nat) (c m : LC_Condition)
    (ds rest : List LC_Condition)
    (h : LoopCloneContext.combineInto fill c ds = some (some (m, rest))) :
    rest.length + 1 = ds.length := by
  induction ds generalizing rest with
  | nil => simp [LoopCloneContext.combineInto] at h
  | cons d ds ih =>
    unfold LoopCloneContext.combineInto at h
    split at h
    · simp at h
    · simp only [Option.some.injEq, Prod.mk.injEq] at h
      simp [h.2]
    · split at h
      · simp at h
      · simp at h
      · rename_i m1 rest1 h2
        simp only [Option.some.injEq, Prod.mk.injEq] at h
        obtain ⟨rfl, rfl⟩ := h
        have := ih rest1 h2
        simp [this]

theorem LoopCloneContext.combineStep_length (fill : Nat) (l l1 : List LC_Condition)
    (h : LoopCloneContext.combineStep fill l = some (some l1)) : l1.length + 1 = l.length := by
  induction l generalizing l1 with
  | nil => simp [LoopCloneContext.combineStep] at h
  | cons c cs ih =>
    unfold LoopCloneContext.combineStep at h
    split at h
    · simp at h
    · rename_i m rest h2
      simp only [Option.some.injEq] at h
      have := LoopCloneContext.combineInto_length fill c m cs rest h2
      rw [← h]
      simp [this]
    · split at h
      · simp at h
      · simp at h
      · rename_i cs1 h2
        simp only [Option.some.injEq] at h
        have := ih cs1 h2
        rw [← h]
        simp [this]

theorem LoopCloneContext.combineAll_fixpoint (fill : Nat) (n : Nat) (l r : List LC_Condition)
    (hn : l.length ≤ n) (h : LoopCloneContext.combineAll fill n l = some r) :
    LoopCloneContext.combineStep fill r = some none := by
  induction n generalizing l with
  | zero =>
    have hl : l = [] := List.length_eq_zero.1 (Nat.le_zero.1 hn)
    subst hl
    simp only [LoopCloneContext.combineAll, Option.some.injEq] at h
    subst h
    rfl
  | succ n ih =>
    unfold LoopCloneContext.combineAll at h
    split at h
    · simp at h
    · rename_i h2
      simp only [Option.some.injEq] at h
      subst h
      exact h2
    · rename_i l1 h2
      have := LoopCloneContext.combineStep_length fill l l1 h2
      exact ih l1 (by omega) h

theorem LoopCloneContext.combineAll_of_fixpoint (fill : Nat) (n : Nat) (l : List LC_Condition)
    (h : LoopCloneContext.combineStep fill l = some none) :
    LoopCloneContext.combineAll fill n l = some l := by
  cases n with
  | zero => rfl
  | succ n => simp [LoopCloneContext.combineAll, h]

theorem LoopCloneContext.removeStatic_residual (fill : Nat) (l r : List LC_Condition)
    (h : LoopCloneContext.removeStatic fill l = some (some r)) :
    r.Sublist l ∧ ∀ c ∈ r, c.staticValue fill = some none := by
  induction l generalizing r with
  | nil =>
    simp only [LoopCloneContext.removeStatic, Option.some.injEq] at h
    subst h
    simp
  | cons c cs ih =>
    unfold LoopCloneContext.removeStatic at h
    split at h
    · simp at h
    · simp at h
    · obtain ⟨h1, h2⟩ := ih r h
      exact ⟨List.Sublist.cons c h1, h2⟩
    · rename_i hc
      split at h
      · simp at h
      · simp at h
      · rename_i rest h2
        simp only [Option.some.injEq] at h
        subst h
        obtain ⟨h3, h4⟩ := ih rest h2
        refine ⟨List.Sublist.cons₂ c h3, ?_⟩
        intro d hd
        rcases List.mem_cons.1 hd with rfl | hd
        · exact hc
        · exact h4 d hd

theorem LoopCloneContext.removeStatic_of_unknown (fill : Nat) (r : List LC_Condition)
    (h : ∀ c ∈ r, c.staticValue fill = some none) :
    LoopCloneContext.removeStatic fill r = some (some r) := by
  induction r with
  | nil => rfl
  | cons c cs ih =>
    unfold LoopCloneContext.removeStatic
    rw [h c (by simp), ih (fun d hd => h d (by simp [hd]))]

theorem LoopCloneContext.lt_length_of_getD (l : List (Option (List LC_Condition))) (n : Nat)
    (x : List LC_Condition) (h : l.getD n none = some x) : n < l.length := by
  by_contra hn
  rw [List.getD_eq_getElem?_getD, List.getElem?_eq_none (by omega)] at h
  simp at h

theorem LC_Condition.Combines_of_isValid (fill : Nat) (c d : LC_Condition)
    (hc : c.isValid = true) (hd : d.isValid = true) :
    ∃ r, c.Combines fill d = some r ∧ ∀ m, r = some m → m = c ∨ m = d := by
  simp only [LC_Condition.isValid, Bool.and_eq_true] at hc hd
  obtain ⟨b1, hb1⟩ := LC_Expr.expr_eq_isSome_of_isValid fill c.op1 d.op1 hc.1 hd.1
  obtain ⟨b2, hb2⟩ := LC_Expr.expr_eq_isSome_of_isValid fill c.op2 d.op2 hc.2 hd.2
  unfold LC_Condition.Combines
  rw [hb1]
  cases b1
  · exact ⟨none, rfl, by simp⟩
  · simp only
    split
    · exact ⟨none, rfl, by simp⟩
    · split
      · refine ⟨_, rfl, ?_⟩
        intro m hm
        simp only [Option.some.injEq] at hm
        subst hm
        split <;> simp
      · rw [hb2]
        cases b2
        · exact ⟨none, rfl, by simp⟩
        · exact ⟨some c, rfl, by simp⟩

theorem LoopCloneContext.combineInto_of_isValid (fill : Nat) (c : LC_Condition)
    (ds : List LC_Condition) (hc : c.isValid = true) (hds : ∀ d ∈ ds, d.isValid = true) :
    ∃ r, LoopCloneContext.combineInto fill c ds = some r ∧
      ∀ m rest, r = some (m, rest) → m.isValid = true ∧ ∀ e ∈ rest, e.isValid = true := by
  induction ds with
  | nil => exact ⟨none, rfl, by simp⟩
  | cons d ds ih =>
    have hd : d.isValid = true := hds d (by simp)
    have hrest : ∀ e ∈ ds, e.isValid = true := fun e he => hds e (by simp [he])
    obtain ⟨r, hr, hm⟩ := LC_Condition.Combines_of_isValid fill c d hc hd
    obtain ⟨r2, hr2, hm2⟩ := ih hrest
    unfold LoopCloneContext.combineInto
    rw [hr]
    rcases r with _ | m
    · simp only
      rw [hr2]
      rcases r2 with _ | ⟨m2, rest2⟩
      · exact ⟨none, rfl, by simp⟩
      · refine ⟨_, rfl, ?_⟩
        intro m rest h
        simp only [Option.some.injEq, Prod.mk.injEq] at h
        obtain ⟨rfl, rfl⟩ := h
        obtain ⟨h3, h4⟩ := hm2 m2 rest2 rfl
        refine ⟨h3, ?_⟩
        intro e he
        rcases List.mem_cons.1 he with rfl | he
        · exact hd
        · exact h4 e he
    · refine ⟨_, rfl, ?_⟩
      intro m1 rest h
      simp only [Option.some.injEq, Prod.mk.injEq] at h
      obtain ⟨rfl, rfl⟩ := h
      refine ⟨?_, hrest⟩
      rcases hm m rfl with rfl | rfl
      · exact hc
      · exact hd

theorem LoopCloneContext.combineStep_of_isValid (fill : Nat) (l : List LC_Condition)
    (hl : ∀ d ∈ l, d.isValid = true) :
    ∃ r, LoopCloneContext.combineStep fill l = some r ∧
      ∀ l1, r = some l1 → ∀ e ∈ l1, e.isValid = true := by
  induction l with
  | nil => exact ⟨none, rfl, by simp⟩
  | cons c cs ih =>
    have hc : c.isValid = true := hl c (by simp)
    have hcs : ∀ e ∈ cs, e.isValid = true := fun e he => hl e (by simp [he])
    obtain ⟨r, hr, hm⟩ := LoopCloneContext.combineInto_of_isValid fill c cs hc hcs
    obtain ⟨r2, hr2, hm2⟩ := ih hcs
    unfold LoopCloneContext.combineStep
    rw [hr]
    rcases r with _ | ⟨m, rest⟩
    · simp only
      rw [hr2]
      rcases r2 with _ | cs1
      · exact ⟨none, rfl, by simp⟩
      · refine ⟨_, rfl, ?_⟩
        intro l1 h e he
        simp only [Option.some.injEq] at h
        subst h
        rcases List.mem_cons.1 he with rfl | he
        · exact hc
        · exact hm2 cs1 rfl e he
    · refine ⟨_, rfl, ?_⟩
      intro l1 h e he
      simp only [Option.some.injEq] at h
      subst h
      obtain ⟨h3, h4⟩ := hm m rest rfl
      rcases List.mem_cons.1 he with rfl | he
      · exact h3
      · exact h4 e he

theorem LoopCloneContext.combineAll_of_isValid (fill : Nat) (n : Nat) (l : List LC_Condition)
    (hl : ∀ d ∈ l, d.isValid = true) :
    ∃ r, LoopCloneContext.combineAll fill n l = some r ∧ ∀ e ∈ r, e.isValid = true := by
  induction n generalizing l with
  | zero => exact ⟨l, rfl, hl⟩
  | succ n ih =>
    obtain ⟨r, hr, hm⟩ := LoopCloneContext.combineStep_of_isValid fill l hl
    unfold LoopCloneContext.combineAll
    rw [hr]
    rcases r with _ | l1
    · exact ⟨l, rfl, hl⟩
    · exact ih l1 (hm l1 rfl)

theorem LoopCloneContext.removeStatic_of_isValid (fill : Nat) (l : List LC_Condition)
    (hl : ∀ d ∈ l, d.isValid = true) : ∃ r, LoopCloneContext.removeStatic fill l = some r := by
  induction l with
  | nil => exact ⟨_, rfl⟩
  | cons c cs ih =>
    obtain ⟨v, hv⟩ := LC_Condition.staticValue_isSome_of_isValid fill c (hl c (by simp))
    obtain ⟨r, hr⟩ := ih (fun e he => hl e (by simp [he]))
    unfold LoopCloneContext.removeStatic
    rw [hv]
    rcases v with _ | b
    · simp only
      rw [hr]
      rcases r with _ | rest <;> exact ⟨_, rfl⟩
    · cases b
      · exact ⟨_, rfl⟩
      · exact ⟨r, hr⟩

theorem LoopCloneContext.OptimizeConditions_residual (fill : Nat) (ctx : LoopCloneContext)
    (loopNum : Nat) (residual : List LC_Condition)
    (hlt : loopNum < ctx.conditions.length)
    (hfix : LoopCloneContext.combineStep fill residual = some none)
    (hunk : ∀ c ∈ residual, c.staticValue fill = some none) :
    LoopCloneContext.OptimizeConditions fill
      { ctx with conditions := ctx.conditions.set loopNum (some residual) } loopNum
      = some { ctx with conditions := ctx.conditions.set loopNum (some residual) } := by
  unfold LoopCloneContext.OptimizeConditions
  simp only [List.getD_eq_getElem?_getD, List.getElem?_set_self hlt, Option.getD_some,
    LoopCloneContext.combineAll_of_fixpoint fill _ residual hfix,
    LoopCloneContext.removeStatic_of_unknown fill residual hunk, List.set_set]

theorem LoopCloneContext.OptimizeConditions_twice (fill : Nat) (ctx ctx1 : LoopCloneContext)
    (loopNum : Nat) (h : LoopCloneContext.OptimizeConditions fill ctx loopNum = some ctx1) :
    LoopCloneContext.OptimizeConditions fill ctx1 loopNum = some ctx1 := by
  unfold LoopCloneContext.OptimizeConditions at h
  split at h
  · simp at h
  · rename_i conds hconds
    have hlt := LoopCloneContext.lt_length_of_getD _ _ _ hconds
    split at h
    · simp at h
    · rename_i merged hmerged
      have hfix := LoopCloneContext.combineAll_fixpoint fill _ conds merged (le_refl _) hmerged
      split at h
      · simp at h
      · unfold LoopCloneContext.CancelLoopOptInfo at h
        split at h
        · simp only [Option.some.injEq] at h
          subst h
          have := LoopCloneContext.OptimizeConditions_residual fill
            { ctx with optInfo := ctx.optInfo.set loopNum none } loopNum [] hlt rfl (by simp)
          simp only [hconds, Option.map_some']
          exact this
        · simp at h
      · rename_i residual hres
        simp only [Option.some.injEq] at h
        subst h
        obtain ⟨hsub, hunk⟩ := LoopCloneContext.removeStatic_residual fill merged residual hres
        have hpw := (LoopCloneContext.combineStep_none_iff fill merged).1 hfix
        have hfix2 := (LoopCloneContext.combineStep_none_iff fill residual).2
          (List.Pairwise.sublist hsub hpw)
        exact LoopCloneContext.OptimizeConditions_residual fill ctx loopNum residual hlt hfix2 hunk

/-- C7: `OptimizeConditions` is idempotent: when a run on a loop leaves the
context `ctx1` (residual condition list, or the cancelled state), a second run
on `ctx1` returns and leaves `ctx1` again; and a run does return when the loop
has a condition list whose operands are valid. -/
theorem LoopCloneContext.OptimizeConditions_idempotent (fill : Nat) (ctx : LoopCloneContext)
    (loopNum : Nat) :
    (∀ ctx1, LoopCloneContext.OptimizeConditions fill ctx loopNum = some ctx1 →
      LoopCloneContext.OptimizeConditions fill ctx1 loopNum = some ctx1) ∧
    (∀ conds, ctx.conditions.getD loopNum none = some conds →
      (∀ c ∈ conds, c.isValid = true) → loopNum < ctx.optInfo.length →
      ∃ ctx1, LoopCloneContext.OptimizeConditions fill ctx loopNum = some ctx1) := by
  refine ⟨fun ctx1 h => LoopCloneContext.OptimizeConditions_twice fill ctx ctx1 loopNum h, ?_⟩
  intro conds hconds hvalid hopt
  have hlt := LoopCloneContext.lt_length_of_getD _ _ _ hconds
  obtain ⟨merged, hm, hmv⟩ := LoopCloneContext.combineAll_of_isValid fill conds.length conds hvalid
  obtain ⟨r, hr⟩ := LoopCloneContext.removeStatic_of_isValid fill merged hmv
  unfold LoopCloneContext.OptimizeConditions
  rw [hconds]
  simp only [hm, hr]
  rcases r with _ | residual
  · exact ⟨_, LoopCloneContext.CancelLoopOptInfo_eq ctx loopNum hopt hlt⟩
  · exact ⟨_, rfl⟩

theorem LoopCloneContext.OptimizeConditions_idempotent_witness :
    LoopCloneContext.OptimizeConditions 0 sampleContext 0 =
      some { sampleContext with conditions := [some [sampleBoundCond 5]] } ∧
    LoopCloneContext.OptimizeConditions 0
      { sampleContext with conditions := [some [sampleBoundCond 5]] } 0 =
      some { sampleContext with conditions := [some [sampleBoundCond 5]] } ∧
    ∃ ctx1, LoopCloneContext.OptimizeConditions 0 sampleContext 0 = some ctx1 :=
  ⟨by decide,
   (LoopCloneContext.OptimizeConditions_idempotent 0 sampleContext 0).1 _ (by decide),
   (LoopCloneContext.OptimizeConditions_idempotent 0 sampleContext 0).2
     [sampleLengthCond, sampleBoundCond 5, sampleBoundCond 7] rfl (by decide) (by decide)⟩

/-! ## Symmetry, base slots and the effective rank of `LC_Array` -/

theorem LC_Array.indicesLoop_comm (fill : Nat) (p q : List Nat) (i n : Nat) :
    LC_Array.indicesLoop fill p q i n = LC_Array.indicesLoop fill q p i n := by
  induction n generalizing i with
  | zero => rfl
  | succ n ih =>
    simp only [LC_Array.indicesLoop, ne_eq, ite_not, ih (i + 1)]
    by_cases h : indexAt fill p i = indexAt fill q i
    · rw [if_pos h, if_pos h.symm]
    · rw [if_neg h, if_neg (fun h2 => h h2.symm)]

/-- C11: `LC_Array` equality is symmetric: for `a` and `b` whose kinds are not
`Invalid`, `a == b` and `b == a` return the same boolean. -/
theorem LC_Array.eq_symm (fill : Nat) (a b : LC_Array)
    (ha : a.type ≠ ArrType.Invalid) (hb : b.type ≠ ArrType.Invalid) :
    ∃ r, LC_Array.eq fill a b = some r ∧ LC_Array.eq fill b a = some r := by
  refine ⟨_, LC_Array.eq_valid fill a b ha hb, ?_⟩
  rw [LC_Array.eq_valid fill b a hb ha]
  congr 1
  rw [decide_eq_decide]
  constructor
  · rintro ⟨h1, h2, h3, h4, h5⟩
    refine ⟨h1.symm, h2.symm, h3.symm, h4.symm, ?_⟩
    rw [LC_Array.indicesLoop_comm, ← h4]
    exact h5
  · rintro ⟨h1, h2, h3, h4, h5⟩
    refine ⟨h1.symm, h2.symm, h3.symm, h4.symm, ?_⟩
    rw [LC_Array.indicesLoop_comm, ← h4]
    exact h5

theorem LC_Array.eq_symm_witness :
    sampleJagged.type ≠ ArrType.Invalid ∧ sampleMdArray.type ≠ ArrType.Invalid ∧
    ∃ r, LC_Array.eq 0 sampleJagged sampleMdArray = some r ∧
      LC_Array.eq 0 sampleMdArray sampleJagged = some r :=
  ⟨by decide, by decide, LC_Array.eq_symm 0 sampleJagged sampleMdArray (by decide) (by decide)⟩

/-- C12: `LC_Array` equality is never true across different base slots: for
valid `a` and `b` with `a.arrIndex.arrLcl != b.arrIndex.arrLcl`, `a == b`
returns false, whatever their kinds, operators, dims and index slots. -/
theorem LC_Array.eq_false_of_arrLcl_ne (fill : Nat) (a b : LC_Array)
    (ha : a.type ≠ ArrType.Invalid) (hb : b.type ≠ ArrType.Invalid)
    (hne : a.arrIndex.arrLcl ≠ b.arrIndex.arrLcl) :
    LC_Array.eq fill a b = some false := by
  unfold LC_Array.eq
  rw [if_neg (by simp [ha, hb]), if_pos (Or.inr (Or.inl hne))]

theorem LC_Array.eq_false_of_arrLcl_ne_witness :
    sampleJagged.type ≠ ArrType.Invalid ∧
    (LC_Array.new ArrType.Jagged { sampleIndex with arrLcl := 9 } OperType.ArrLen).type
      ≠ ArrType.Invalid ∧
    sampleJagged.arrIndex.arrLcl ≠
      (LC_Array.new ArrType.Jagged { sampleIndex with arrLcl := 9 } OperType.ArrLen).arrIndex.arrLcl ∧
    LC_Array.eq 0 sampleJagged
      (LC_Array.new ArrType.Jagged { sampleIndex with arrLcl := 9 } OperType.ArrLen) = some false :=
  ⟨by decide, by decide, by decide,
   LC_Array.eq_false_of_arrLcl_ne 0 sampleJagged
     (LC_Array.new ArrType.Jagged { sampleIndex with arrLcl := 9 } OperType.ArrLen)
     (by decide) (by decide) (by decide)⟩

theorem toInt32_of_lt (u : Nat) (h : u < 2 ^ 31) : toInt32 u = (u : Int) := by
  have h2 : u % 2 ^ 32 = u := Nat.mod_eq_of_lt (by omega)
  unfold toInt32
  rw [h2, if_pos h]

/-- C13: `GetDimRank` returns `dim` when `dim` is non-negative and the full
rank of the underlying `ArrIndex` when `dim` is negative: the value of
`(int)arrIndex->rank`, which is the rank itself for every rank an `int` holds;
in particular for the default `dim = -1` of the three-argument constructor. -/
theorem LC_Array.GetDimRank_spec (a : LC_Array) :
    (0 ≤ a.dim → a.GetDimRank = a.dim) ∧
    (a.dim < 0 → a.GetDimRank = toInt32 a.arrIndex.rank) ∧
    (a.dim < 0 → a.arrIndex.rank < 2 ^ 31 → a.GetDimRank = (a.arrIndex.rank : Int)) ∧
    (∀ type oper, a.arrIndex.rank < 2 ^ 31 →
      (LC_Array.new type a.arrIndex oper).GetDimRank = (a.arrIndex.rank : Int)) := by
  refine ⟨?_, ?_, ?_, ?_⟩
  · intro h
    unfold LC_Array.GetDimRank
    rw [if_neg (by omega)]
  · intro h
    unfold LC_Array.GetDimRank
    rw [if_pos h]
  · intro h hr
    unfold LC_Array.GetDimRank
    rw [if_pos h, toInt32_of_lt _ hr]
  · intro type oper hr
    unfold LC_Array.GetDimRank
    simp only [LC_Array.new]
    rw [if_pos (by decide), toInt32_of_lt _ hr]

theorem LC_Array.GetDimRank_spec_witness :
    (LC_Array.newDim ArrType.Jagged sampleIndex 1 OperType.ArrLen).GetDimRank = 1 ∧
    sampleJagged.GetDimRank = 2 ∧
    (LC_Array.new ArrType.MdArray sampleIndex OperType.None).GetDimRank = 2 :=
  ⟨(LC_Array.GetDimRank_spec
      (LC_Array.newDim ArrType.Jagged sampleIndex 1 OperType.ArrLen)).1 (by decide),
   (LC_Array.GetDimRank_spec sampleJagged).2.2.1 (by decide) (by decide),
   (LC_Array.GetDimRank_spec sampleJagged).2.2.2 ArrType.MdArray OperType.None (by decide)⟩

/-! ## `GetArrIndexForDim` -/

theorem LcMdArrayOptInfo.pushLoop_eq (arrElem : GenTreeArrElem) (n i : Nat) (indLcls : List Nat)
    (h : i + n ≤ arrElem.gtArrInds.length) :
    LcMdArrayOptInfo.pushLoop arrElem i n indLcls =
      some (indLcls ++ (arrElem.gtArrInds.drop i).take n) := by
  induction n generalizing i indLcls with
  | zero => simp [LcMdArrayOptInfo.pushLoop]
  | succ n ih =>
    have hi : i < arrElem.gtArrInds.length := by omega
    unfold LcMdArrayOptInfo.pushLoop
    rw [List.getElem?_eq_getElem hi]
    simp only
    rw [ih (i + 1) _ (by omega), List.drop_eq_getElem_cons hi, List.take_succ_cons]
    simp

theorem LcMdArrayOptInfo.pushLoop_some (arrElem : GenTreeArrElem) (n i : Nat)
    (indLcls r : List Nat) (h : LcMdArrayOptInfo.pushLoop arrElem i n indLcls = some r) :
    n = 0 ∨ i + n ≤ arrElem.gtArrInds.length := by
  induction n generalizing i indLcls with
  | zero => exact Or.inl rfl
  | succ n ih =>
    right
    unfold LcMdArrayOptInfo.pushLoop at h
    split at h
    · simp at h
    · rename_i lclNum hget
      obtain ⟨hi, _⟩ := List.getElem?_eq_some.1 hget
      rcases ih (i + 1) _ h with h0 | h1
      · omega
      · omega

theorem LcMdArrayOptInfo.pushLoop_zero (arrElem : GenTreeArrElem) (dim : Nat) (r : List Nat)
    (h : LcMdArrayOptInfo.pushLoop arrElem 0 dim [] = some r) :
    r = arrElem.gtArrInds.take dim ∧ r.length = dim := by
  have hle : dim ≤ arrElem.gtArrInds.length := by
    rcases LcMdArrayOptInfo.pushLoop_some arrElem dim 0 [] r h with h0 | h1
    · omega
    · omega
  rw [LcMdArrayOptInfo.pushLoop_eq arrElem dim 0 [] (by omega)] at h
  simp only [List.drop_zero, List.nil_append, Option.some.injEq] at h
  subst h
  exact ⟨rfl, by simp [hle]⟩

/-- A first call (no cached index) that returns: the record it builds. -/
theorem LcMdArrayOptInfo.GetArrIndexForDim_of_null (BAD_VAR_NUM : Nat) (info : LcMdArrayOptInfo)
    (hnull : info.index = none) (index : ArrIndex) (info1 : LcMdArrayOptInfo)
    (h : LcMdArrayOptInfo.GetArrIndexForDim BAD_VAR_NUM info = some (index, info1)) :
    index = { arrLcl := info.arrElem.gtArrObj, indLcls := info.arrElem.gtArrInds.take info.dim,
              bndsChks := [], rank := info.arrElem.gtArrRank, useBlock := none } ∧
    index.indLcls.length = info.dim ∧
    info1 = { info with index := some index } := by
  unfold LcMdArrayOptInfo.GetArrIndexForDim at h
  rw [hnull] at h
  simp only [ArrIndex.new] at h
  split at h
  · simp at h
  · rename_i indLcls hpush
    obtain ⟨h1, h2⟩ := LcMdArrayOptInfo.pushLoop_zero info.arrElem info.dim indLcls hpush
    simp only [Option.some.injEq, Prod.mk.injEq] at h
    obtain ⟨hidx, hinfo⟩ := h
    subst hidx
    subst hinfo
    subst h1
    exact ⟨rfl, h2, rfl⟩

theorem LcMdArrayOptInfo.GetArrIndexForDim_of_cached (BAD_VAR_NUM : Nat)
    (info : LcMdArrayOptInfo) (cached : ArrIndex) (h : info.index = some cached) :
    LcMdArrayOptInfo.GetArrIndexForDim BAD_VAR_NUM info = some (cached, info) := by
  unfold LcMdArrayOptInfo.GetArrIndexForDim
  rw [h]

theorem LcMdArrayOptInfo.GetArrIndexForDim_returns (BAD_VAR_NUM : Nat)
    (info : LcMdArrayOptInfo)
    (h : info.index.isSome = true ∨ info.dim ≤ info.arrElem.gtArrInds.length) :
    ∃ r, LcMdArrayOptInfo.GetArrIndexForDim BAD_VAR_NUM info = some r := by
  rcases hidx : info.index with _ | cached
  · have hdim : info.dim ≤ info.arrElem.gtArrInds.length := by
      rcases h with h | h
      · simp [hidx] at h
      · exact h
    unfold LcMdArrayOptInfo.GetArrIndexForDim
    rw [hidx]
    simp only [ArrIndex.new]
    rw [LcMdArrayOptInfo.pushLoop_eq info.arrElem info.dim 0 [] (by omega)]
    exact ⟨_, rfl⟩
  · exact ⟨_, LcMdArrayOptInfo.GetArrIndexForDim_of_cached BAD_VAR_NUM info cached hidx⟩

/-- After a call that returns, the candidate caches the returned record and
keeps its other fields. -/
theorem LcMdArrayOptInfo.GetArrIndexForDim_caches (BAD_VAR_NUM : Nat) (info : LcMdArrayOptInfo)
    (index : ArrIndex) (info1 : LcMdArrayOptInfo)
    (h : LcMdArrayOptInfo.GetArrIndexForDim BAD_VAR_NUM info = some (index, info1)) :
    info1.index = some index ∧ info1.arrElem = info.arrElem ∧ info1.dim = info.dim ∧
    info1.optType = info.optType := by
  rcases hidx : info.index with _ | cached
  · obtain ⟨_, _, h3⟩ := LcMdArrayOptInfo.GetArrIndexForDim_of_null BAD_VAR_NUM info hidx _ _ h
    subst h3
    exact ⟨rfl, rfl, rfl, rfl⟩
  · rw [LcMdArrayOptInfo.GetArrIndexForDim_of_cached BAD_VAR_NUM info cached hidx] at h
    simp only [Option.some.injEq, Prod.mk.injEq] at h
    obtain ⟨h1, h2⟩ := h
    subst h1
    subst h2
    exact ⟨hidx, rfl, rfl, rfl⟩

/-- C14: `GetArrIndexForDim` is memoised: a call that returns `index` stores
that record in the candidate (`info1.index = some index`) and changes no other
field of the candidate, and a second call returns the very same `index` (base
slot, rank and index slots included) and leaves the candidate as the first
call left it; a call made when the cached index is present returns the cached
record, whatever the element node and the depth are, and changes no field of
the candidate. The call returns whenever the index is cached or the node has
`dim` index operands. -/
theorem LcMdArrayOptInfo.GetArrIndexForDim_memoised (BAD_VAR_NUM : Nat)
    (info : LcMdArrayOptInfo) :
    (∀ index info1,
      LcMdArrayOptInfo.GetArrIndexForDim BAD_VAR_NUM info = some (index, info1) →
      info1.index = some index ∧ info1.arrElem = info.arrElem ∧ info1.dim = info.dim ∧
      info1.optType = info.optType ∧
      LcMdArrayOptInfo.GetArrIndexForDim BAD_VAR_NUM info1 = some (index, info1)) ∧
    (∀ cached, info.index = some cached →
      LcMdArrayOptInfo.GetArrIndexForDim BAD_VAR_NUM info = some (cached, info)) ∧
    (info.index.isSome = true ∨ info.dim ≤ info.arrElem.gtArrInds.length →
      ∃ r, LcMdArrayOptInfo.GetArrIndexForDim BAD_VAR_NUM info = some r) := by
  refine ⟨?_, ?_, ?_⟩
  · intro index info1 h
    obtain ⟨hc, h2, h3, h4⟩ :=
      LcMdArrayOptInfo.GetArrIndexForDim_caches BAD_VAR_NUM info index info1 h
    exact ⟨hc, h2, h3, h4,
      LcMdArrayOptInfo.GetArrIndexForDim_of_cached BAD_VAR_NUM info1 index hc⟩
  · intro cached h
    exact LcMdArrayOptInfo.GetArrIndexForDim_of_cached BAD_VAR_NUM info cached h
  · intro h
    exact LcMdArrayOptInfo.GetArrIndexForDim_returns BAD_VAR_NUM info h

theorem LcMdArrayOptInfo.GetArrIndexForDim_memoised_witness :
    LcMdArrayOptInfo.GetArrIndexForDim 4294967295 (LcMdArrayOptInfo.new sampleArrElem 2) =
      some ({ arrLcl := 1, indLcls := [2, 3], bndsChks := [], rank := 3, useBlock := none },
            { LcMdArrayOptInfo.new sampleArrElem 2 with
              index := some { arrLcl := 1, indLcls := [2, 3], bndsChks := [], rank := 3,
                              useBlock := none } }) ∧
    ({ LcMdArrayOptInfo.new sampleArrElem 2 with
        index := some { arrLcl := 1, indLcls := [2, 3], bndsChks := [], rank := 3,
                        useBlock := none } } : LcMdArrayOptInfo).index =
      some { arrLcl := 1, indLcls := [2, 3], bndsChks := [], rank := 3, useBlock := none } ∧
    LcMdArrayOptInfo.GetArrIndexForDim 4294967295
      { LcMdArrayOptInfo.new sampleArrElem 2 with
        index := some { arrLcl := 1, indLcls := [2, 3], bndsChks := [], rank := 3,
                        useBlock := none } } =
      some ({ arrLcl := 1, indLcls := [2, 3], bndsChks := [], rank := 3, useBlock := none },
            { LcMdArrayOptInfo.new sampleArrElem 2 with
              index := some { arrLcl := 1, indLcls := [2, 3], bndsChks := [], rank := 3,
                              useBlock := none } }) ∧
    ∃ r, LcMdArrayOptInfo.GetArrIndexForDim 4294967295 (LcMdArrayOptInfo.new sampleArrElem 2)
      = some r :=
  ⟨by decide,
   ((LcMdArrayOptInfo.GetArrIndexForDim_memoised 4294967295
      (LcMdArrayOptInfo.new sampleArrElem 2)).1 _ _ (by decide)).1,
   ((LcMdArrayOptInfo.GetArrIndexForDim_memoised 4294967295
      (LcMdArrayOptInfo.new sampleArrElem 2)).1 _ _ (by decide)).2.2.2.2,
   (LcMdArrayOptInfo.GetArrIndexForDim_memoised 4294967295
      (LcMdArrayOptInfo.new sampleArrElem 2)).2.2 (Or.inr (by decide))⟩

/-- C15: on its first call (no cached index) for a candidate with depth `dim`
whose node has `dim` index operands, `GetArrIndexForDim` returns an `ArrIndex`
whose base slot is the local number of the element node's array object, whose
rank is the element node's rank, and whose index-slot sequence is exactly the
local numbers of the first `dim` index operands, in order (length exactly
`dim`); it records no bounds check and no block. -/
theorem LcMdArrayOptInfo.GetArrIndexForDim_first (BAD_VAR_NUM : Nat) (info : LcMdArrayOptInfo)
    (hnull : info.index = none) (hdim : info.dim ≤ info.arrElem.gtArrInds.length) :
    ∃ index info1,
      LcMdArrayOptInfo.GetArrIndexForDim BAD_VAR_NUM info = some (index, info1) ∧
      index.arrLcl = info.arrElem.gtArrObj ∧
      index.rank = info.arrElem.gtArrRank ∧
      index.indLcls = info.arrElem.gtArrInds.take info.dim ∧
      index.indLcls.length = info.dim ∧
      index.bndsChks = [] ∧ index.useBlock = none := by
  obtain ⟨⟨index, info1⟩, hr⟩ :=
    LcMdArrayOptInfo.GetArrIndexForDim_returns BAD_VAR_NUM info (Or.inr hdim)
  obtain ⟨h1, h2, _⟩ :=
    LcMdArrayOptInfo.GetArrIndexForDim_of_null BAD_VAR_NUM info hnull index info1 hr
  refine ⟨index, info1, hr, ?_, ?_, ?_, h2, ?_, ?_⟩ <;> rw [h1]

theorem LcMdArrayOptInfo.GetArrIndexForDim_first_witness :
    (LcMdArrayOptInfo.new sampleArrElem 2).index = none ∧
    (LcMdArrayOptInfo.new sampleArrElem 2).dim ≤
      (LcMdArrayOptInfo.new sampleArrElem 2).arrElem.gtArrInds.length ∧
    ∃ index info1,
      LcMdArrayOptInfo.GetArrIndexForDim 4294967295 (LcMdArrayOptInfo.new sampleArrElem 2)
        = some (index, info1) ∧
      index.arrLcl = (LcMdArrayOptInfo.new sampleArrElem 2).arrElem.gtArrObj ∧
      index.rank = (LcMdArrayOptInfo.new sampleArrElem 2).arrElem.gtArrRank ∧
      index.indLcls = (LcMdArrayOptInfo.new sampleArrElem 2).arrElem.gtArrInds.take
        (LcMdArrayOptInfo.new sampleArrElem 2).dim ∧
      index.indLcls.length = (LcMdArrayOptInfo.new sampleArrElem 2).dim ∧
      index.bndsChks = [] ∧ index.useBlock = none :=
  ⟨rfl, by decide,
   LcMdArrayOptInfo.GetArrIndexForDim_first 4294967295 (LcMdArrayOptInfo.new sampleArrElem 2)
     rfl (by decide)⟩

/-- C17: for `LC_Span` values over non-null `SpanIndex` records `s` and `t`,
`a == b` returns a boolean that is true exactly when the two records have the
same length-source slot (`lenLcl`) and the same index slot (`indLcl`); the
bounds-check node and the use block take no part: replacing them in either
operand leaves the result unchanged. -/
theorem LC_Span.eq_iff_slots (s t : SpanIndex) :
    (∃ r, LC_Span.eq { spanIndex := some s } { spanIndex := some t } = some r) ∧
    (LC_Span.eq { spanIndex := some s } { spanIndex := some t } = some true ↔
      s.lenLcl = t.lenLcl ∧ s.indLcl = t.indLcl) ∧
    (∀ b1 u1 b2 u2,
      LC_Span.eq { spanIndex := some { s with bndsChk := b1, useBlock := u1 } }
        { spanIndex := some { t with bndsChk := b2, useBlock := u2 } }
      = LC_Span.eq { spanIndex := some s } { spanIndex := some t }) := by
  refine ⟨⟨_, rfl⟩, ?_, ?_⟩
  · simp [LC_Span.eq]
  · intro b1 u1 b2 u2
    rfl

theorem LC_Span.eq_iff_slots_witness :
    LC_Span.eq { spanIndex := some sampleSpanIndex }
      { spanIndex := some { sampleSpanIndex with bndsChk := none, useBlock := some 9 } }
      = some true :=
  (LC_Span.eq_iff_slots sampleSpanIndex
    { sampleSpanIndex with bndsChk := none, useBlock := some 9 }).2.1.2 ⟨rfl, rfl⟩

/-- C18, as stated, fails: comparing the invalid sentinel with an ident of
another tag, on either side of `==`, returns the boolean false; no assertion
fails. -/
theorem LC_Ident.invalid_vs_var_returns_false :
    LC_Ident.eq 0 LC_Ident.Invalid (LC_Ident.CreateVar 1) = some false ∧
    LC_Ident.eq 0 (LC_Ident.CreateVar 1) LC_Ident.Invalid = some false := by
  constructor <;> decide

/-- C18, amended: comparing two idents whose tags are both `Invalid` fails
with an assertion instead of returning a boolean; comparing an ident whose tag
is `Invalid` with an ident of any other tag, on either side of `==`, returns
false. -/
theorem LC_Ident.eq_invalid (fill : Nat) (s x : LC_Ident) (hs : s.type = IdentType.Invalid) :
    (x.type = IdentType.Invalid →
      LC_Ident.eq fill s x = none ∧ LC_Ident.eq fill x s = none) ∧
    (x.type ≠ IdentType.Invalid →
      LC_Ident.eq fill s x = some false ∧ LC_Ident.eq fill x s = some false) := by
  cases s <;> simp [LC_Ident.type] at hs
  constructor
  · intro hx
    cases x <;> simp [LC_Ident.type] at hx
    exact ⟨rfl, rfl⟩
  · intro hx
    exact ⟨LC_Ident.eq_of_type_ne fill _ _ (fun h => hx h.symm),
      LC_Ident.eq_of_type_ne fill _ _ hx⟩

theorem LC_Ident.eq_invalid_witness :
    LC_Ident.Invalid.type = IdentType.Invalid ∧
    (LC_Ident.eq 0 LC_Ident.Invalid LC_Ident.Invalid = none ∧
      LC_Ident.eq 0 LC_Ident.Invalid LC_Ident.Invalid = none) ∧
    (LC_Ident.eq 0 LC_Ident.Invalid LC_Ident.CreateNull = some false ∧
      LC_Ident.eq 0 LC_Ident.CreateNull LC_Ident.Invalid = some false) :=
  ⟨rfl,
   (LC_Ident.eq_invalid 0 LC_Ident.Invalid LC_Ident.Invalid rfl).1 rfl,
   (LC_Ident.eq_invalid 0 LC_Ident.Invalid LC_Ident.CreateNull rfl).2 (by decide)⟩

/-- C19: `LC_Expr` equality delegates to the wrapped ident: for expressions of
type `Ident` (those built from an `LC_Ident`), `e1 == e2` gives the result of
`e1.ident == e2.ident`; if either operand has type `Invalid` (the
default-constructed expression) the comparison fails its assertion. -/
theorem LC_Expr.eq_delegates (fill : Nat) :
    (∀ e1 e2 : LC_Expr, e1.type = ExprType.Ident → e2.type = ExprType.Ident →
      LC_Expr.eq fill e1 e2 = LC_Ident.eq fill e1.ident e2.ident) ∧
    (∀ i1 i2 : LC_Ident,
      LC_Expr.eq fill (LC_Expr.ofIdent i1) (LC_Expr.ofIdent i2) = LC_Ident.eq fill i1 i2) ∧
    (∀ e1 e2 : LC_Expr, e1.type = ExprType.Invalid ∨ e2.type = ExprType.Invalid →
      LC_Expr.eq fill e1 e2 = none) ∧
    (∀ e : LC_Expr, LC_Expr.eq fill LC_Expr.new e = none ∧ LC_Expr.eq fill e LC_Expr.new = none) := by
  refine ⟨?_, ?_, ?_, ?_⟩
  · intro e1 e2 h1 h2
    simp [LC_Expr.eq, h1, h2]
  · intro i1 i2
    simp [LC_Expr.eq, LC_Expr.ofIdent]
  · intro e1 e2 h
    simp [LC_Expr.eq, h]
  · intro e
    simp [LC_Expr.eq, LC_Expr.new]

theorem LC_Expr.eq_delegates_witness :
    LC_Expr.eq 0 (LC_Expr.ofIdent (LC_Ident.CreateVar 1)) (LC_Expr.ofIdent (LC_Ident.CreateVar 1))
      = LC_Ident.eq 0 (LC_Ident.CreateVar 1) (LC_Ident.CreateVar 1) ∧
    LC_Expr.eq 0 LC_Expr.new (LC_Expr.ofIdent (LC_Ident.CreateVar 1)) = none :=
  ⟨(LC_Expr.eq_delegates 0).1 _ _ rfl rfl,
   (LC_Expr.eq_delegates 0).2.2.1 _ _ (Or.inl rfl)⟩

/-! ## The fresh context, the debug-only handle, and the candidate tags -/

/-- C23: a freshly constructed `LoopCloneContext` for `loopCount` loops is in
the uninitialized state for every loop: each of the six per-loop tables has
exactly `loopCount` entries and every entry is null. -/
theorem LoopCloneContext.new_uninitialized (loopCount : Nat) :
    ((LoopCloneContext.new loopCount).optInfo.length = loopCount ∧
     (LoopCloneContext.new loopCount).conditions.length = loopCount ∧
     (LoopCloneContext.new loopCount).arrayDerefs.length = loopCount ∧
     (LoopCloneContext.new loopCount).objDerefs.length = loopCount ∧
     (LoopCloneContext.new loopCount).blockConditions.length = loopCount ∧
     (LoopCloneContext.new loopCount).iterInfo.length = loopCount) ∧
    ((∀ e ∈ (LoopCloneContext.new loopCount).optInfo, e = none) ∧
     (∀ e ∈ (LoopCloneContext.new loopCount).conditions, e = none) ∧
     (∀ e ∈ (LoopCloneContext.new loopCount).arrayDerefs, e = none) ∧
     (∀ e ∈ (LoopCloneContext.new loopCount).objDerefs, e = none) ∧
     (∀ e ∈ (LoopCloneContext.new loopCount).blockConditions, e = none) ∧
     (∀ e ∈ (LoopCloneContext.new loopCount).iterInfo, e = none)) ∧
    (∀ loopNum, loopNum < loopCount →
      (LoopCloneContext.new loopCount).optInfo[loopNum]? = some none ∧
      (LoopCloneContext.new loopCount).conditions[loopNum]? = some none ∧
      (LoopCloneContext.new loopCount).arrayDerefs[loopNum]? = some none ∧
      (LoopCloneContext.new loopCount).objDerefs[loopNum]? = some none ∧
      (LoopCloneContext.new loopCount).blockConditions[loopNum]? = some none ∧
      (LoopCloneContext.new loopCount).iterInfo[loopNum]? = some none) := by
  refine ⟨?_, ?_, ?_⟩
  · simp [LoopCloneContext.new]
  · simp only [LoopCloneContext.new]
    refine ⟨?_, ?_, ?_, ?_, ?_, ?_⟩ <;> intro e he <;> exact (List.mem_replicate.1 he).2
  · intro loopNum h
    simp [LoopCloneContext.new, List.getElem?_replicate, h]

theorem LoopCloneContext.new_uninitialized_witness :
    (LoopCloneContext.new 3).optInfo[2]? = some none ∧
    (LoopCloneContext.new 3).conditions[2]? = some none ∧
    (LoopCloneContext.new 3).arrayDerefs[2]? = some none ∧
    (LoopCloneContext.new 3).objDerefs[2]? = some none ∧
    (LoopCloneContext.new 3).blockConditions[2]? = some none ∧
    (LoopCloneContext.new 3).iterInfo[2]? = some none :=
  (LoopCloneContext.new_uninitialized 3).2.2 2 (by decide)

/-- C27: the debug-only target-method handle never influences equality: two
idents created by `CreateMethodAddr` (or two created by
`CreateIndirMethodAddrSlot`), in DEBUG or release builds and with any method
handles, compare by their addresses alone, so they are equal when the address
is the same; an ident from `CreateMethodAddr` never equals one from
`CreateIndirMethodAddrSlot`, even for the same address. -/
theorem LC_Ident.eq_ignores_targetMethHnd (fill : Nat) (debug1 debug2 : Bool)
    (addr1 addr2 hnd1 hnd2 : Nat) :
    LC_Ident.eq fill (LC_Ident.CreateMethodAddr debug1 addr1 hnd1)
      (LC_Ident.CreateMethodAddr debug2 addr2 hnd2) = some (decide (addr1 = addr2)) ∧
    LC_Ident.eq fill (LC_Ident.CreateIndirMethodAddrSlot debug1 addr1 hnd1)
      (LC_Ident.CreateIndirMethodAddrSlot debug2 addr2 hnd2) = some (decide (addr1 = addr2)) ∧
    LC_Ident.eq fill (LC_Ident.CreateMethodAddr debug1 addr1 hnd1)
      (LC_Ident.CreateMethodAddr debug2 addr1 hnd2) = some true ∧
    LC_Ident.eq fill (LC_Ident.CreateIndirMethodAddrSlot debug1 addr1 hnd1)
      (LC_Ident.CreateIndirMethodAddrSlot debug2 addr1 hnd2) = some true ∧
    LC_Ident.eq fill (LC_Ident.CreateMethodAddr debug1 addr1 hnd1)
      (LC_Ident.CreateIndirMethodAddrSlot debug2 addr2 hnd2) = some false ∧
    LC_Ident.eq fill (LC_Ident.CreateIndirMethodAddrSlot debug1 addr1 hnd1)
      (LC_Ident.CreateMethodAddr debug2 addr2 hnd2) = some false := by
  simp [LC_Ident.eq, LC_Ident.CreateMethodAddr, LC_Ident.CreateIndirMethodAddrSlot,
    LC_Ident.type]

/-- C28: every candidate variant carries its own tag and the checked downcast
respects it: a candidate built by the `LcMdArrayOptInfo`,
`LcJaggedArrayOptInfo`, `LcSpanOptInfo`, `LcTypeTestOptInfo` or
`LcMethodAddrTestOptInfo` constructor has `GetOptType()` equal to `LcMdArray`,
`LcJaggedArray`, `LcSpan`, `LcTypeTest` or `LcMethodAddrTest` respectively,
and `As<K>OptInfo` passes its assertion exactly when the candidate's tag is
`K`, returning the candidate itself. -/
theorem LcOptInfo.tag_and_downcast :
    (∀ arrElem dim,
      (LcOptInfo.mdArray (LcMdArrayOptInfo.new arrElem dim)).GetOptType = OptType.LcMdArray) ∧
    (∀ arrIndex dim stmt,
      (LcOptInfo.jaggedArray (LcJaggedArrayOptInfo.new arrIndex dim stmt)).GetOptType
        = OptType.LcJaggedArray) ∧
    (∀ spanIndex stmt,
      (LcOptInfo.span (LcSpanOptInfo.new spanIndex stmt)).GetOptType = OptType.LcSpan) ∧
    (∀ block stmt indir lclNum clsHnd,
      (LcOptInfo.typeTest (LcTypeTestOptInfo.new block stmt indir lclNum clsHnd)).GetOptType
        = OptType.LcTypeTest) ∧
    (∀ debug block stmt indir lclNum methAddr isSlot hnd,
      (LcOptInfo.methodAddrTest
        (LcMethodAddrTestOptInfo.new debug block stmt indir lclNum methAddr isSlot hnd)).GetOptType
        = OptType.LcMethodAddrTest) ∧
    (∀ (K : OptType) (info : LcOptInfo),
      ((∃ r, LcOptInfo.As K info = some r) ↔ info.GetOptType = K) ∧
      (info.GetOptType = K → LcOptInfo.As K info = some info) ∧
      (info.GetOptType ≠ K → LcOptInfo.As K info = none)) := by
  refine ⟨fun _ _ => rfl, fun _ _ _ => rfl, fun _ _ => rfl, fun _ _ _ _ _ => rfl,
    fun _ _ _ _ _ _ _ _ => rfl, ?_⟩
  intro K info
  unfold LcOptInfo.As
  by_cases h : info.GetOptType = K
  · simp [h]
  · simp [h]

theorem LcOptInfo.tag_and_downcast_witness :
    LcOptInfo.As OptType.LcSpan (LcOptInfo.span (LcSpanOptInfo.new sampleSpanIndex 9))
      = some (LcOptInfo.span (LcSpanOptInfo.new sampleSpanIndex 9)) ∧
    LcOptInfo.As OptType.LcMdArray (LcOptInfo.span (LcSpanOptInfo.new sampleSpanIndex 9))
      = none :=
  ⟨(LcOptInfo.tag_and_downcast.2.2.2.2.2 OptType.LcSpan
      (LcOptInfo.span (LcSpanOptInfo.new sampleSpanIndex 9))).2.1 (by decide),
   (LcOptInfo.tag_and_downcast.2.2.2.2.2 OptType.LcMdArray
      (LcOptInfo.span (LcSpanOptInfo.new sampleSpanIndex 9))).2.2 (by decide)⟩

/-! ## `operator==` as an equivalence, what it depends on, what it reads -/

theorem LC_Array.eq_eq_some_true_iff (fill : Nat) (a b : LC_Array) :
    LC_Array.eq fill a b = some true ↔
      a.type ≠ ArrType.Invalid ∧ b.type ≠ ArrType.Invalid ∧ LC_Array.AgreesOnRead fill a b := by
  by_cases ha : a.type = ArrType.Invalid
  · simp [LC_Array.eq, ha]
  · by_cases hb : b.type = ArrType.Invalid
    · simp [LC_Array.eq, hb]
    · rw [LC_Array.eq_valid fill a b ha hb]
      simp only [Option.some.injEq, decide_eq_true_eq, LC_Array.indicesLoop_eq_true, Nat.zero_le,
        true_implies, Nat.zero_add, LC_Array.rank_lt_iff, LC_Array.AgreesOnRead, ne_eq, ha, hb,
        not_false_eq_true, true_and]

theorem LC_Array.array_eq_comm (fill : Nat) (a b : LC_Array) :
    LC_Array.eq fill a b = LC_Array.eq fill b a := by
  by_cases ha : a.type = ArrType.Invalid
  · simp [LC_Array.eq, ha]
  · by_cases hb : b.type = ArrType.Invalid
    · simp [LC_Array.eq, hb]
    · rw [LC_Array.eq_valid fill a b ha hb, LC_Array.eq_valid fill b a hb ha]
      congr 1
      rw [decide_eq_decide]
      constructor
      · rintro ⟨h1, h2, h3, h4, h5⟩
        refine ⟨h1.symm, h2.symm, h3.symm, h4.symm, ?_⟩
        rw [LC_Array.indicesLoop_comm, ← h4]
        exact h5
      · rintro ⟨h1, h2, h3, h4, h5⟩
        refine ⟨h1.symm, h2.symm, h3.symm, h4.symm, ?_⟩
        rw [LC_Array.indicesLoop_comm, ← h4]
        exact h5

theorem LC_Array.agreesOnRead_trans (fill : Nat) (a b c : LC_Array)
    (h1 : LC_Array.AgreesOnRead fill a b) (h2 : LC_Array.AgreesOnRead fill b c) :
    LC_Array.AgreesOnRead fill a c := by
  obtain ⟨t1, l1, o1, r1, i1⟩ := h1
  obtain ⟨t2, l2, o2, r2, i2⟩ := h2
  refine ⟨t1.trans t2, l1.trans l2, o1.trans o2, r1.trans r2, ?_⟩
  intro i hi
  exact (i1 i hi).trans (i2 i (r1 ▸ hi))

theorem LC_Array.agreesOnRead_symm (fill : Nat) (a b : LC_Array)
    (h : LC_Array.AgreesOnRead fill a b) : LC_Array.AgreesOnRead fill b a := by
  obtain ⟨t1, l1, o1, r1, i1⟩ := h
  exact ⟨t1.symm, l1.symm, o1.symm, r1.symm, fun i hi => (i1 i (r1 ▸ hi)).symm⟩

theorem LC_Array.array_eq_trans (fill : Nat) (a b c : LC_Array)
    (h1 : LC_Array.eq fill a b = some true) (h2 : LC_Array.eq fill b c = some true) :
    LC_Array.eq fill a c = some true := by
  rw [LC_Array.eq_eq_some_true_iff] at h1 h2 ⊢
  exact ⟨h1.1, h2.2.1, LC_Array.agreesOnRead_trans fill a b c h1.2.2 h2.2.2⟩

theorem LC_Span.span_eq_comm (a b : LC_Span) : LC_Span.eq a b = LC_Span.eq b a := by
  rcases a with ⟨_ | s⟩ <;> rcases b with ⟨_ | t⟩ <;> simp [LC_Span.eq]
  rw [Bool.eq_iff_iff]
  simp only [Bool.and_eq_true, decide_eq_true_eq]
  constructor <;> rintro ⟨h1, h2⟩ <;> exact ⟨h1.symm, h2.symm⟩

theorem LC_Span.span_eq_trans (a b c : LC_Span)
    (h1 : LC_Span.eq a b = some true) (h2 : LC_Span.eq b c = some true) :
    LC_Span.eq a c = some true := by
  rw [LC_Span.eq_eq_some_true] at h1 h2 ⊢
  obtain ⟨s, t, hs, ht, e1, e2⟩ := h1
  obtain ⟨t2, u, ht2, hu, e3, e4⟩ := h2
  rw [ht] at ht2
  simp only [Option.some.injEq] at ht2
  subst ht2
  exact ⟨s, u, hs, hu, e1.trans e3, e2.trans e4⟩

theorem LC_Ident.ident_eq_comm (fill : Nat) (a b : LC_Ident) :
    LC_Ident.eq fill a b = LC_Ident.eq fill b a := by
  cases a <;> cases b <;>
    simp [LC_Ident.eq, LC_Ident.type, LC_Array.array_eq_comm fill, LC_Span.span_eq_comm] <;>
    first
      | exact eq_comm
      | (rw [Bool.eq_iff_iff]
         simp only [Bool.and_eq_true, decide_eq_true_eq]
         constructor <;> rintro ⟨h1, h2⟩ <;> exact ⟨h1.symm, h2.symm⟩)

theorem LC_Ident.ident_eq_trans (fill : Nat) (a b c : LC_Ident)
    (h1 : LC_Ident.eq fill a b = some true) (h2 : LC_Ident.eq fill b c = some true) :
    LC_Ident.eq fill a c = some true := by
  rw [LC_Ident.eq_true_iff] at h1 h2 ⊢
  obtain ⟨t1, p1⟩ := h1
  obtain ⟨t2, p2⟩ := h2
  refine ⟨t1.trans t2, ?_⟩
  cases a <;> cases b <;> simp only [LC_Ident.SamePayload] at p1 <;>
    cases c <;> simp only [LC_Ident.SamePayload] at p2 ⊢ <;>
    first
      | exact p1.elim
      | exact p2.elim
      | exact trivial
      | exact p1.trans p2
      | exact ⟨p1.1.trans p2.1, p1.2.trans p2.2⟩
      | exact LC_Array.array_eq_trans fill _ _ _ p1 p2
      | exact LC_Span.span_eq_trans _ _ _ p1 p2

theorem LC_Expr.eq_eq_ident_of_some (fill : Nat) (e1 e2 : LC_Expr) (r : Bool)
    (h : LC_Expr.eq fill e1 e2 = some r) :
    e1.type = ExprType.Ident ∧ e2.type = ExprType.Ident := by
  rcases e1 with ⟨i1, t1⟩
  rcases e2 with ⟨i2, t2⟩
  cases t1 <;> cases t2 <;> simp [LC_Expr.eq] at h ⊢

theorem LC_Expr.expr_eq_comm (fill : Nat) (e1 e2 : LC_Expr) :
    LC_Expr.eq fill e1 e2 = LC_Expr.eq fill e2 e1 := by
  rcases e1 with ⟨i1, t1⟩
  rcases e2 with ⟨i2, t2⟩
  cases t1 <;> cases t2 <;> simp [LC_Expr.eq]
  exact LC_Ident.ident_eq_comm fill i1 i2

theorem LC_Expr.expr_eq_trans (fill : Nat) (e1 e2 e3 : LC_Expr)
    (h1 : LC_Expr.eq fill e1 e2 = some true) (h2 : LC_Expr.eq fill e2 e3 = some true) :
    LC_Expr.eq fill e1 e3 = some true := by
  obtain ⟨t1, t2⟩ := LC_Expr.eq_eq_ident_of_some fill e1 e2 true h1
  obtain ⟨_, t3⟩ := LC_Expr.eq_eq_ident_of_some fill e2 e3 true h2
  simp only [LC_Expr.eq, t1, t2, t3, reduceCtorEq, or_self, if_false, ne_eq,
    not_true_eq_false] at h1 h2 ⊢
  exact LC_Ident.ident_eq_trans fill _ _ _ h1 h2

/-- C24: on `LC_Ident` values with a non-`Invalid` tag and valid embedded
`LC_Array` / non-null `LC_Span` payloads, `operator==` is an equivalence
relation: reflexive, symmetric (both orders give the same result) and
transitive; the same holds for `LC_Expr` equality on expressions of type
`Ident`. Symmetry and transitivity hold for all operands. -/
theorem LC_Ident.eq_equivalence (fill : Nat) :
    (∀ a : LC_Ident, a.isValid = true → LC_Ident.eq fill a a = some true) ∧
    (∀ a b : LC_Ident, LC_Ident.eq fill a b = LC_Ident.eq fill b a) ∧
    (∀ a b c : LC_Ident, LC_Ident.eq fill a b = some true → LC_Ident.eq fill b c = some true →
      LC_Ident.eq fill a c = some true) ∧
    (∀ a b : LC_Ident, a.isValid = true → b.isValid = true →
      ∃ r, LC_Ident.eq fill a b = some r) ∧
    (∀ e : LC_Expr, e.isValid = true → LC_Expr.eq fill e e = some true) ∧
    (∀ e1 e2 : LC_Expr, LC_Expr.eq fill e1 e2 = LC_Expr.eq fill e2 e1) ∧
    (∀ e1 e2 e3 : LC_Expr, LC_Expr.eq fill e1 e2 = some true →
      LC_Expr.eq fill e2 e3 = some true → LC_Expr.eq fill e1 e3 = some true) ∧
    (∀ e1 e2 : LC_Expr, e1.isValid = true → e2.isValid = true →
      ∃ r, LC_Expr.eq fill e1 e2 = some r) :=
  ⟨fun a h => LC_Ident.ident_eq_self_of_isValid fill a h,
   fun a b => LC_Ident.ident_eq_comm fill a b,
   fun a b c h1 h2 => LC_Ident.ident_eq_trans fill a b c h1 h2,
   fun a b ha hb => LC_Ident.ident_eq_isSome_of_isValid fill a b ha hb,
   fun e h => LC_Expr.expr_eq_self_of_isValid fill e h,
   fun e1 e2 => LC_Expr.expr_eq_comm fill e1 e2,
   fun e1 e2 e3 h1 h2 => LC_Expr.expr_eq_trans fill e1 e2 e3 h1 h2,
   fun e1 e2 h1 h2 => LC_Expr.expr_eq_isSome_of_isValid fill e1 e2 h1 h2⟩

theorem LC_Ident.eq_equivalence_witness :
    LC_Ident.eq 0 (LC_Ident.CreateArrAccess sampleJagged) (LC_Ident.CreateArrAccess sampleJagged)
      = some true ∧
    LC_Ident.eq 0 (LC_Ident.CreateArrAccess sampleJagged)
      (LC_Ident.CreateArrAccess { sampleJagged with arrIndex := { sampleIndex with useBlock := some 3 } })
      = some true ∧
    LC_Expr.eq 0 (LC_Expr.ofIdent (LC_Ident.CreateVar 4)) (LC_Expr.ofIdent (LC_Ident.CreateVar 4))
      = some true :=
  ⟨(LC_Ident.eq_equivalence 0).1 (LC_Ident.CreateArrAccess sampleJagged) (by decide),
   (LC_Ident.eq_equivalence 0).2.2.1 (LC_Ident.CreateArrAccess sampleJagged)
     (LC_Ident.CreateArrAccess sampleJagged)
     (LC_Ident.CreateArrAccess
       { sampleJagged with arrIndex := { sampleIndex with useBlock := some 3 } })
     (by decide) (by decide),
   (LC_Ident.eq_equivalence 0).2.2.2.2.1 (LC_Expr.ofIdent (LC_Ident.CreateVar 4)) (by decide)⟩

theorem LC_Array.eq_congr_agreesOnRead (fill : Nat) (a a1 b b1 : LC_Array)
    (ha : LC_Array.AgreesOnRead fill a a1) (hb : LC_Array.AgreesOnRead fill b b1) :
    LC_Array.eq fill a b = LC_Array.eq fill a1 b1 := by
  have key : ∀ x x1 y y1 : LC_Array, LC_Array.AgreesOnRead fill x x1 →
      LC_Array.AgreesOnRead fill y y1 → LC_Array.eq fill x y = some true →
      LC_Array.eq fill x1 y1 = some true := by
    intro x x1 y y1 hx hy h
    rw [LC_Array.eq_eq_some_true_iff] at h ⊢
    refine ⟨hx.1 ▸ h.1, hy.1 ▸ h.2.1, ?_⟩
    exact LC_Array.agreesOnRead_trans fill _ _ _ (LC_Array.agreesOnRead_symm fill _ _ hx)
      (LC_Array.agreesOnRead_trans fill _ _ _ h.2.2 hy)
  by_cases hv : a.type = ArrType.Invalid ∨ b.type = ArrType.Invalid
  · have hv1 : a1.type = ArrType.Invalid ∨ b1.type = ArrType.Invalid := by
      rw [← ha.1, ← hb.1]
      exact hv
    simp [LC_Array.eq, hv, hv1]
  · simp only [not_or] at hv
    have hv1 : a1.type ≠ ArrType.Invalid ∧ b1.type ≠ ArrType.Invalid := by
      rw [← ha.1, ← hb.1]
      exact hv
    obtain ⟨r, hr⟩ : ∃ r, LC_Array.eq fill a b = some r := ⟨_, LC_Array.eq_valid fill a b hv.1 hv.2⟩
    obtain ⟨r1, hr1⟩ : ∃ r, LC_Array.eq fill a1 b1 = some r :=
      ⟨_, LC_Array.eq_valid fill a1 b1 hv1.1 hv1.2⟩
    rw [hr, hr1]
    congr 1
    cases r <;> cases r1 <;> first | rfl | skip
    · have := key a1 a b1 b (LC_Array.agreesOnRead_symm fill _ _ ha)
        (LC_Array.agreesOnRead_symm fill _ _ hb) hr1
      rw [hr] at this
      simp at this
    · have := key a a1 b b1 ha hb hr
      rw [hr1] at this
      simp at this

theorem LC_Array.agreesOnRead_of_change (fill : Nat) (a : LC_Array)
    (tail bndsChks : List Nat) (useBlock : Option Nat) (rank : Nat)
    (hlen : a.GetDimRank ≤ (a.arrIndex.indLcls.length : Int)) :
    LC_Array.AgreesOnRead fill a
      { a with arrIndex :=
        { arrLcl := a.arrIndex.arrLcl
          indLcls := a.arrIndex.indLcls.take a.GetDimRank.toNat ++ tail
          bndsChks := bndsChks
          rank := if a.dim < 0 then a.arrIndex.rank else rank
          useBlock := useBlock } } := by
  refine ⟨rfl, rfl, rfl, ?_, ?_⟩
  · unfold LC_Array.GetDimRank
    by_cases h : a.dim < 0
    · simp [h]
    · simp [h]
  · intro i hi
    have hi2 : i < a.GetDimRank.toNat := by omega
    have hi3 : i < a.arrIndex.indLcls.length := by omega
    simp only [indexAt, List.getD_eq_getElem?_getD]
    rw [List.getElem?_append_left (by simp [List.length_take]; omega),
      List.getElem?_take_of_lt hi2]

/-- C25: `LC_Array` equality depends only on kind, base slot, operator,
effective rank `r` and the index slots below `r`: operands that agree on these
give the same result, so replacing, in either operand, the index slots at
positions `>= r` (with `r` slots present), the recorded bounds-check nodes,
the use block, or (when `dim >= 0`) the `ArrIndex` rank never changes the
result of `a == b`. -/
theorem LC_Array.eq_depends_only_on_read (fill : Nat) (a b : LC_Array) :
    (∀ a1 b1, LC_Array.AgreesOnRead fill a a1 → LC_Array.AgreesOnRead fill b b1 →
      LC_Array.eq fill a b = LC_Array.eq fill a1 b1) ∧
    (a.GetDimRank ≤ (a.arrIndex.indLcls.length : Int) →
     b.GetDimRank ≤ (b.arrIndex.indLcls.length : Int) →
     ∀ (tailA bndsA : List Nat) (useA : Option Nat) (rankA : Nat)
       (tailB bndsB : List Nat) (useB : Option Nat) (rankB : Nat),
      LC_Array.eq fill
        { a with arrIndex :=
          { arrLcl := a.arrIndex.arrLcl
            indLcls := a.arrIndex.indLcls.take a.GetDimRank.toNat ++ tailA
            bndsChks := bndsA
            rank := if a.dim < 0 then a.arrIndex.rank else rankA
            useBlock := useA } }
        { b with arrIndex :=
          { arrLcl := b.arrIndex.arrLcl
            indLcls := b.arrIndex.indLcls.take b.GetDimRank.toNat ++ tailB
            bndsChks := bndsB
            rank := if b.dim < 0 then b.arrIndex.rank else rankB
            useBlock := useB } }
      = LC_Array.eq fill a b) := by
  refine ⟨fun a1 b1 ha hb => LC_Array.eq_congr_agreesOnRead fill a a1 b b1 ha hb, ?_⟩
  intro ha hb tailA bndsA useA rankA tailB bndsB useB rankB
  exact (LC_Array.eq_congr_agreesOnRead fill a _ b _
    (LC_Array.agreesOnRead_of_change fill a tailA bndsA useA rankA ha)
    (LC_Array.agreesOnRead_of_change fill b tailB bndsB useB rankB hb)).symm

theorem LC_Array.eq_depends_only_on_read_witness :
    LC_Array.eq 0
      { LC_Array.newDim ArrType.Jagged sampleIndex 1 OperType.ArrLen with arrIndex :=
        { arrLcl := 1, indLcls := [2] ++ [7, 8], bndsChks := [5], rank := 9, useBlock := some 6 } }
      { sampleJagged with arrIndex :=
        { arrLcl := 1, indLcls := [2, 3] ++ [4], bndsChks := [], rank := 2, useBlock := none } }
      = LC_Array.eq 0 (LC_Array.newDim ArrType.Jagged sampleIndex 1 OperType.ArrLen)
          sampleJagged :=
  (LC_Array.eq_depends_only_on_read 0 (LC_Array.newDim ArrType.Jagged sampleIndex 1 OperType.ArrLen)
    sampleJagged).2 (by decide) (by decide) [7, 8] [5] (some 6) 9 [4] [] none 0

theorem LC_Array.indicesLoopReads_bounds (fill : Nat) (p q : List Nat) (n i k : Nat)
    (h : k ∈ LC_Array.indicesLoopReads fill p q i n) : i ≤ k ∧ k < i + n := by
  induction n generalizing i with
  | zero => simp [LC_Array.indicesLoopReads] at h
  | succ n ih =>
    simp only [LC_Array.indicesLoopReads, List.mem_cons] at h
    rcases h with rfl | h
    · omega
    · split at h
      · simp at h
      · have := ih (i + 1) h
        omega

/-- C26, as stated, fails: `sampleShort` has a valid kind and meets the
`ArrIndex` invariant (one index slot, rank 2), yet comparing it with itself
reads position 1, which is not below the length 1 of its index sequence. -/
theorem LC_Array.eq_reads_past_length :
    sampleShort.type ≠ ArrType.Invalid ∧
    sampleShort.arrIndex.indLcls.length ≤ sampleShort.arrIndex.rank ∧
    LC_Array.eqReads 0 sampleShort sampleShort = [0, 1] ∧
    ¬ (∀ i ∈ LC_Array.eqReads 0 sampleShort sampleShort,
        i < sampleShort.arrIndex.indLcls.length) := by
  refine ⟨by decide, by decide, by decide, ?_⟩
  intro h
  exact absurd (h 1 (by decide)) (by decide)

/-- C26, amended: for `LC_Array` values whose effective dimension rank
`GetDimRank()` is at most the number of index slots of their `ArrIndex` (for
`dim = -1`: the rank is at most the number of slots), `operator==` never reads
an index position at or beyond the length of the index sequence it reads
from. -/
theorem LC_Array.eq_reads_in_range (fill : Nat) (a b : LC_Array)
    (ha : a.GetDimRank ≤ (a.arrIndex.indLcls.length : Int))
    (hb : b.GetDimRank ≤ (b.arrIndex.indLcls.length : Int)) :
    ∀ i ∈ LC_Array.eqReads fill a b,
      i < a.arrIndex.indLcls.length ∧ i < b.arrIndex.indLcls.length := by
  intro i hi
  unfold LC_Array.eqReads at hi
  split at hi
  · simp at hi
  · split at hi
    · simp at hi
    · simp only at hi
      split at hi
      · simp at hi
      · rename_i hr
        simp only [ne_eq, not_not] at hr
        have := LC_Array.indicesLoopReads_bounds fill _ _ _ _ _ hi
        constructor
        · omega
        · omega

theorem LC_Array.eq_reads_in_range_witness :
    sampleJagged.GetDimRank ≤ (sampleJagged.arrIndex.indLcls.length : Int) ∧
    LC_Array.eqReads 0 sampleJagged sampleJagged = [0, 1] ∧
    ∀ i ∈ LC_Array.eqReads 0 sampleJagged sampleJagged,
      i < sampleJagged.arrIndex.indLcls.length ∧ i < sampleJagged.arrIndex.indLcls.length :=
  ⟨by decide, by decide,
   LC_Array.eq_reads_in_range 0 sampleJagged sampleJagged (by decide) (by decide)⟩

/-! ## `InitJITHelpers1` -/

theorem VM.setPortableHelpers_spec (s : VM.EEState) :
    (VM.setPortableHelpers s).hlpFuncTable VM.CorInfoHelpFunc.CORINFO_HELP_NEWSFAST
      = VM.HelperCode.JIT_NewS_MP_FastPortable ∧
    (VM.setPortableHelpers s).hlpFuncTable VM.CorInfoHelpFunc.CORINFO_HELP_NEWSFAST_ALIGN8
      = VM.HelperCode.JIT_NewS_MP_FastPortable ∧
    (VM.setPortableHelpers s).hlpFuncTable VM.CorInfoHelpFunc.CORINFO_HELP_NEWARR_1_VC
      = VM.HelperCode.JIT_NewArr1VC_MP_FastPortable ∧
    (VM.setPortableHelpers s).hlpFuncTable VM.CorInfoHelpFunc.CORINFO_HELP_NEWARR_1_OBJ
      = VM.HelperCode.JIT_NewArr1OBJ_MP_FastPortable ∧
    (VM.setPortableHelpers s).fastAllocateString = VM.HelperCode.AllocateString_MP_FastPortable ∧
    (∀ num, (VM.setPortableHelpers s).hlpFuncTable (VM.CorInfoHelpFunc.other num)
      = s.hlpFuncTable (VM.CorInfoHelpFunc.other num)) := by
  simp [VM.setPortableHelpers, VM.SetJitHelperFunction, VM.AssignFastAllocateString]

theorem VM.setSingleProcHelpers_spec (s : VM.EEState) :
    (VM.setSingleProcHelpers s).hlpFuncTable VM.CorInfoHelpFunc.CORINFO_HELP_NEWSFAST
      = VM.HelperCode.JIT_TrialAllocSFastSP ∧
    (VM.setSingleProcHelpers s).hlpFuncTable VM.CorInfoHelpFunc.CORINFO_HELP_NEWSFAST_ALIGN8
      = VM.HelperCode.JIT_TrialAllocSFastSP ∧
    (VM.setSingleProcHelpers s).hlpFuncTable VM.CorInfoHelpFunc.CORINFO_HELP_NEWARR_1_VC
      = VM.HelperCode.JIT_NewArr1VC_UP ∧
    (VM.setSingleProcHelpers s).hlpFuncTable VM.CorInfoHelpFunc.CORINFO_HELP_NEWARR_1_OBJ
      = VM.HelperCode.JIT_NewArr1OBJ_UP ∧
    (VM.setSingleProcHelpers s).fastAllocateString = VM.HelperCode.AllocateStringFastUP ∧
    (∀ num, (VM.setSingleProcHelpers s).hlpFuncTable (VM.CorInfoHelpFunc.other num)
      = s.hlpFuncTable (VM.CorInfoHelpFunc.other num)) := by
  simp [VM.setSingleProcHelpers, VM.SetJitHelperFunction, VM.AssignFastAllocateString]

theorem VM.allocationsObserved_iff (env : VM.Environment) :
    VM.allocationsObserved env = true ↔
      (env.trackAllocationsEnabled = true ∨ env.loggingOnGCAlloc = true ∨
        (env.debug = true ∧ env.shouldInjectFaultGCHeap ≠ 0)) := by
  simp [VM.allocationsObserved, or_assoc]

/-- C29: on AMD64, `InitJITHelpers1` replaces allocation helpers only when
allocations are not observed. If allocation tracking is enabled or
GC-allocation logging is on (or, in debug builds, GC-heap fault injection is
configured), the JIT helper table and the `FastAllocateString` implementation
are left unchanged. Otherwise `CORINFO_HELP_NEWSFAST` and
`CORINFO_HELP_NEWSFAST_ALIGN8` are set to the same helper, and
`CORINFO_HELP_NEWARR_1_VC`, `CORINFO_HELP_NEWARR_1_OBJ` and
`FastAllocateString` are each set from the same family: the multi-processor
portable one (on Unix, or with thread allocation contexts) or the
single-processor one; the other entries of the table keep their value. The
function returns unless the processor-count assertion of a debug build
fails. -/
theorem VM.InitJITHelpers1_spec (env : VM.Environment) (s : VM.EEState)
    (hamd : env.targetAMD64 = true) :
    ((env.debug = false ∨ env.dwNumberOfProcessors ≠ 0) →
      ∃ s1, VM.InitJITHelpers1 env s = some s1) ∧
    ∀ s1, VM.InitJITHelpers1 env s = some s1 →
      ((env.trackAllocationsEnabled = true ∨ env.loggingOnGCAlloc = true ∨
          (env.debug = true ∧ env.shouldInjectFaultGCHeap ≠ 0)) →
        s1.hlpFuncTable = s.hlpFuncTable ∧ s1.fastAllocateString = s.fastAllocateString) ∧
      (¬ (env.trackAllocationsEnabled = true ∨ env.loggingOnGCAlloc = true ∨
          (env.debug = true ∧ env.shouldInjectFaultGCHeap ≠ 0)) →
        s1.hlpFuncTable VM.CorInfoHelpFunc.CORINFO_HELP_NEWSFAST
          = s1.hlpFuncTable VM.CorInfoHelpFunc.CORINFO_HELP_NEWSFAST_ALIGN8 ∧
        (((env.targetUnix = true ∨ env.useThreadAllocationContexts = true) ∧
          s1.hlpFuncTable VM.CorInfoHelpFunc.CORINFO_HELP_NEWSFAST
            = VM.HelperCode.JIT_NewS_MP_FastPortable ∧
          s1.hlpFuncTable VM.CorInfoHelpFunc.CORINFO_HELP_NEWARR_1_VC
            = VM.HelperCode.JIT_NewArr1VC_MP_FastPortable ∧
          s1.hlpFuncTable VM.CorInfoHelpFunc.CORINFO_HELP_NEWARR_1_OBJ
            = VM.HelperCode.JIT_NewArr1OBJ_MP_FastPortable ∧
          s1.fastAllocateString = VM.HelperCode.AllocateString_MP_FastPortable) ∨
         ((env.targetUnix = false ∧ env.useThreadAllocationContexts = false) ∧
          s1.hlpFuncTable VM.CorInfoHelpFunc.CORINFO_HELP_NEWSFAST
            = VM.HelperCode.JIT_TrialAllocSFastSP ∧
          s1.hlpFuncTable VM.CorInfoHelpFunc.CORINFO_HELP_NEWARR_1_VC
            = VM.HelperCode.JIT_NewArr1VC_UP ∧
          s1.hlpFuncTable VM.CorInfoHelpFunc.CORINFO_HELP_NEWARR_1_OBJ
            = VM.HelperCode.JIT_NewArr1OBJ_UP ∧
          s1.fastAllocateString = VM.HelperCode.AllocateStringFastUP)) ∧
        (∀ num, s1.hlpFuncTable (VM.CorInfoHelpFunc.other num)
          = s.hlpFuncTable (VM.CorInfoHelpFunc.other num))) := by
  constructor
  · intro hok
    have hna : ¬ (env.debug = true ∧ env.dwNumberOfProcessors = 0) := by
      rintro ⟨h1, h2⟩
      rcases hok with h | h
      · rw [h1] at h
        exact Bool.noConfusion h
      · exact h h2
    unfold VM.InitJITHelpers1
    rw [if_neg hna, if_pos hamd]
    simp only
    split
    · split
      · exact ⟨_, rfl⟩
      · split <;> exact ⟨_, rfl⟩
    · exact ⟨_, rfl⟩
  · intro s1 h
    unfold VM.InitJITHelpers1 at h
    split at h
    · simp at h
    · simp only at h
      rw [← VM.allocationsObserved_iff]
      by_cases hobs : VM.allocationsObserved env = true
      · rw [hobs] at h
        simp only [Bool.not_true, Bool.false_eq_true, if_false, Option.some.injEq] at h
        subst h
        exact ⟨fun _ => ⟨rfl, rfl⟩, fun hn => absurd hobs hn⟩
      · refine ⟨fun hp => absurd hp hobs, fun _ => ?_⟩
        have hobs2 : VM.allocationsObserved env = false := by simpa using hobs
        rw [hobs2] at h
        simp only [Bool.not_false, if_true] at h
        by_cases hunix : env.targetUnix = true
        · rw [if_pos hunix] at h
          simp only [Option.some.injEq] at h
          subst h
          obtain ⟨h1, h2, h3, h4, h5, h6⟩ := VM.setPortableHelpers_spec
            { s with writeBarrierManagerInitialized := true }
          exact ⟨h1.trans h2.symm, Or.inl ⟨Or.inl hunix, h1, h3, h4, h5⟩, h6⟩
        · rw [if_neg hunix] at h
          by_cases hctx : env.useThreadAllocationContexts = true
          · rw [if_pos hctx] at h
            simp only [Option.some.injEq] at h
            subst h
            obtain ⟨h1, h2, h3, h4, h5, h6⟩ := VM.setPortableHelpers_spec
              { s with writeBarrierManagerInitialized := true }
            exact ⟨h1.trans h2.symm, Or.inl ⟨Or.inr hctx, h1, h3, h4, h5⟩, h6⟩
          · rw [if_neg hctx] at h
            simp only [Option.some.injEq] at h
            subst h
            obtain ⟨h1, h2, h3, h4, h5, h6⟩ := VM.setSingleProcHelpers_spec
              { s with writeBarrierManagerInitialized := true }
            exact ⟨h1.trans h2.symm,
              Or.inr ⟨⟨by simpa using hunix, by simpa using hctx⟩, h1, h3, h4, h5⟩, h6⟩

theorem VM.InitJITHelpers1_spec_witness :
    sampleEnvironment.targetAMD64 = true ∧
    (∃ s1, VM.InitJITHelpers1 sampleEnvironment sampleEEState = some s1) ∧
    (VM.setSingleProcHelpers
        { sampleEEState with writeBarrierManagerInitialized := true }).hlpFuncTable
      VM.CorInfoHelpFunc.CORINFO_HELP_NEWSFAST
      = (VM.setSingleProcHelpers
          { sampleEEState with writeBarrierManagerInitialized := true }).hlpFuncTable
        VM.CorInfoHelpFunc.CORINFO_HELP_NEWSFAST_ALIGN8 :=
  ⟨rfl,
   (VM.InitJITHelpers1_spec sampleEnvironment sampleEEState rfl).1 (Or.inl rfl),
   (((VM.InitJITHelpers1_spec sampleEnvironment sampleEEState rfl).2
      (VM.setSingleProcHelpers { sampleEEState with writeBarrierManagerInitialized := true })
      rfl).2 (by decide)).1⟩

/-! ## The dereference tree has no duplicate branches -/

theorem LC_ArrayDeref.FindIn_eq_none_iff (fill : Nat) (children : Option (List LC_ArrayDeref))
    (lcl : Nat) :
    LC_ArrayDeref.FindIn fill children lcl = none ↔
      ∀ c ∈ children.getD [], c.Lcl fill ≠ lcl := by
  cases children with
  | none => simp [LC_ArrayDeref.FindIn]
  | some l => simp [LC_ArrayDeref.FindIn, List.find?_eq_none]

theorem LC_ArrayDeref.FindIn_some (fill : Nat) (children : Option (List LC_ArrayDeref))
    (lcl : Nat) (c : LC_ArrayDeref) (h : LC_ArrayDeref.FindIn fill children lcl = some c) :
    c ∈ children.getD [] ∧ c.Lcl fill = lcl := by
  cases children with
  | none => simp [LC_ArrayDeref.FindIn] at h
  | some l =>
    simp only [LC_ArrayDeref.FindIn] at h
    have h1 := List.mem_of_find?_eq_some h
    have h2 := List.find?_some h
    exact ⟨by simpa using h1, by simpa using h2⟩

theorem LC_ArrayDeref.EnsureChildren_fields (node : LC_ArrayDeref) :
    node.EnsureChildren.array = node.array ∧ node.EnsureChildren.level = node.level ∧
    node.EnsureChildren.childList = node.childList := by
  rcases node with ⟨a, c, l⟩
  cases c <;> simp [LC_ArrayDeref.EnsureChildren, LC_ArrayDeref.array, LC_ArrayDeref.level,
    LC_ArrayDeref.childList, LC_ArrayDeref.children]

theorem LC_ArrayDeref.addLevels_fields (fill : Nat) (array : LC_Array) (n i : Nat)
    (node : LC_ArrayDeref) :
    (LC_ArrayDeref.addLevels fill array i n node).array = node.array ∧
    (LC_ArrayDeref.addLevels fill array i n node).level = node.level := by
  cases n with
  | zero => exact ⟨rfl, rfl⟩
  | succ n =>
    obtain ⟨h1, h2, _⟩ := LC_ArrayDeref.EnsureChildren_fields node
    unfold LC_ArrayDeref.addLevels
    simp only
    split <;> simp [LC_ArrayDeref.array, LC_ArrayDeref.level] <;> exact ⟨h1, h2⟩

theorem LC_ArrayDeref.Lcl_congr (fill : Nat) (x y : LC_ArrayDeref)
    (ha : x.array = y.array) (hl : x.level = y.level) : x.Lcl fill = y.Lcl fill := by
  unfold LC_ArrayDeref.Lcl
  rw [ha, hl]

theorem LC_ArrayDeref.addLevels_Lcl (fill : Nat) (array : LC_Array) (n i : Nat)
    (node : LC_ArrayDeref) :
    (LC_ArrayDeref.addLevels fill array i n node).Lcl fill = node.Lcl fill :=
  LC_ArrayDeref.Lcl_congr fill _ _ (LC_ArrayDeref.addLevels_fields fill array n i node).1
    (LC_ArrayDeref.addLevels_fields fill array n i node).2

theorem LC_ArrayDeref.map_Lcl_updateFound (fill lcl : Nat) (f : LC_ArrayDeref → LC_ArrayDeref)
    (l : List LC_ArrayDeref) (hf : ∀ c ∈ l, (f c).Lcl fill = c.Lcl fill) :
    (LC_ArrayDeref.updateFound fill lcl f l).map (LC_ArrayDeref.Lcl fill)
      = l.map (LC_ArrayDeref.Lcl fill) := by
  induction l with
  | nil => rfl
  | cons c cs ih =>
    unfold LC_ArrayDeref.updateFound
    split
    · simp [hf c (by simp)]
    · simp [ih (fun d hd => hf d (by simp [hd]))]

theorem LC_ArrayDeref.mem_updateFound (fill lcl : Nat) (f : LC_ArrayDeref → LC_ArrayDeref)
    (l : List LC_ArrayDeref) (x : LC_ArrayDeref)
    (h : x ∈ LC_ArrayDeref.updateFound fill lcl f l) : x ∈ l ∨ ∃ c ∈ l, x = f c := by
  induction l with
  | nil => simp [LC_ArrayDeref.updateFound] at h
  | cons c cs ih =>
    unfold LC_ArrayDeref.updateFound at h
    split at h
    · rcases List.mem_cons.1 h with rfl | h
      · exact Or.inr ⟨c, by simp, rfl⟩
      · exact Or.inl (by simp [h])
    · rcases List.mem_cons.1 h with rfl | h
      · exact Or.inl (by simp)
      · rcases ih h with h1 | ⟨d, hd, rfl⟩
        · exact Or.inl (by simp [h1])
        · exact Or.inr ⟨d, by simp [hd], rfl⟩

theorem LC_ArrayDeref.noDuplicates_nil (fill depth level : Nat) :
    LC_ArrayDeref.NoDuplicates fill depth level [] := by
  cases depth <;> simp [LC_ArrayDeref.NoDuplicates]

theorem LC_ArrayDeref.noDuplicates_append_new (fill depth level : Nat)
    (l : List LC_ArrayDeref) (c0 : LC_ArrayDeref)
    (h : LC_ArrayDeref.NoDuplicates fill (depth + 1) level l)
    (hkey : ∀ c ∈ l, c.Lcl fill ≠ c0.Lcl fill) (hl : c0.level = level)
    (hc : LC_ArrayDeref.NoDuplicates fill depth (level + 1) c0.childList) :
    LC_ArrayDeref.NoDuplicates fill (depth + 1) level (l ++ [c0]) := by
  obtain ⟨h1, h2⟩ := h
  refine ⟨?_, ?_⟩
  · rw [List.map_append, List.nodup_append]
    refine ⟨h1, by simp, ?_⟩
    intro k hk1 hk2
    simp only [List.map_cons, List.map_nil, List.mem_singleton] at hk2
    obtain ⟨c, hc1, hc2⟩ := List.mem_map.1 hk1
    exact hkey c hc1 (hc2.trans hk2)
  · intro c hcm
    rcases List.mem_append.1 hcm with hcm | hcm
    · exact h2 c hcm
    · simp only [List.mem_singleton] at hcm
      subst hcm
      exact ⟨hl, hc⟩

theorem LC_ArrayDeref.noDuplicates_updateFound (fill depth level lcl : Nat)
    (f : LC_ArrayDeref → LC_ArrayDeref) (l : List LC_ArrayDeref)
    (h : LC_ArrayDeref.NoDuplicates fill (depth + 1) level l)
    (hf : ∀ c, c.level = level →
      LC_ArrayDeref.NoDuplicates fill depth (level + 1) c.childList →
      (f c).level = level ∧ (f c).Lcl fill = c.Lcl fill ∧
      LC_ArrayDeref.NoDuplicates fill depth (level + 1) (f c).childList) :
    LC_ArrayDeref.NoDuplicates fill (depth + 1) level (LC_ArrayDeref.updateFound fill lcl f l) := by
  obtain ⟨h1, h2⟩ := h
  refine ⟨?_, ?_⟩
  · rw [LC_ArrayDeref.map_Lcl_updateFound fill lcl f l
      (fun c hc => (hf c (h2 c hc).1 (h2 c hc).2).2.1)]
    exact h1
  · intro x hx
    rcases LC_ArrayDeref.mem_updateFound fill lcl f l x hx with hx | ⟨c, hc, rfl⟩
    · exact h2 x hx
    · obtain ⟨r1, _, r3⟩ := hf c (h2 c hc).1 (h2 c hc).2
      exact ⟨r1, r3⟩

theorem LC_ArrayDeref.Lcl_new (fill : Nat) (array : LC_Array) (i : Nat) :
    (LC_ArrayDeref.new array (i + 1)).Lcl fill = indexAt fill array.arrIndex.indLcls i ∧
    (LC_ArrayDeref.new array 0).Lcl fill = array.arrIndex.arrLcl := by
  simp [LC_ArrayDeref.Lcl, LC_ArrayDeref.new, LC_ArrayDeref.level, LC_ArrayDeref.array]

theorem LC_ArrayDeref.addLevels_noDuplicates (fill : Nat) (array : LC_Array) (n : Nat) :
    ∀ (i : Nat) (node : LC_ArrayDeref) (depth : Nat), node.level = i →
      LC_ArrayDeref.NoDuplicates fill depth (i + 1) node.childList →
      LC_ArrayDeref.NoDuplicates fill depth (i + 1)
        (LC_ArrayDeref.addLevels fill array i n node).childList := by
  induction n with
  | zero =>
    intro i node depth _ h
    exact h
  | succ n ih =>
    intro i node depth hl h
    obtain ⟨_, e2, e3⟩ := LC_ArrayDeref.EnsureChildren_fields node
    cases depth with
    | zero => simp [LC_ArrayDeref.NoDuplicates]
    | succ depth =>
      unfold LC_ArrayDeref.addLevels
      simp only
      split
      · rename_i hfind
        have hnone := (LC_ArrayDeref.FindIn_eq_none_iff fill _ _).1 hfind
        show LC_ArrayDeref.NoDuplicates fill (depth + 1) (i + 1)
          (node.EnsureChildren.childList ++
            [LC_ArrayDeref.addLevels fill array (i + 1) n
              (LC_ArrayDeref.new array (node.EnsureChildren.level + 1))])
        rw [e3, e2, hl]
        apply LC_ArrayDeref.noDuplicates_append_new fill depth (i + 1) _ _ h
        · intro c hc
          rw [LC_ArrayDeref.addLevels_Lcl, (LC_ArrayDeref.Lcl_new fill array i).1]
          apply hnone c
          show c ∈ node.EnsureChildren.childList
          rw [e3]
          exact hc
        · rw [(LC_ArrayDeref.addLevels_fields fill array n (i + 1) _).2]
          rfl
        · exact ih (i + 1) _ depth rfl (LC_ArrayDeref.noDuplicates_nil fill depth (i + 1 + 1))
      · show LC_ArrayDeref.NoDuplicates fill (depth + 1) (i + 1)
          (LC_ArrayDeref.updateFound fill (indexAt fill array.arrIndex.indLcls i)
            (LC_ArrayDeref.addLevels fill array (i + 1) n) node.EnsureChildren.childList)
        rw [e3]
        apply LC_ArrayDeref.noDuplicates_updateFound fill depth (i + 1) _ _ _ h
        intro c hcl hcn
        exact ⟨(LC_ArrayDeref.addLevels_fields fill array n (i + 1) c).2.trans hcl,
          LC_ArrayDeref.addLevels_Lcl fill array n (i + 1) c,
          ih (i + 1) c depth hcl hcn⟩

theorem LC_ArrayDeref.addAccess_noDuplicates (fill depth : Nat) (roots : List LC_ArrayDeref)
    (array : LC_Array) (h : LC_ArrayDeref.NoDuplicates fill depth 0 roots) :
    LC_ArrayDeref.NoDuplicates fill depth 0 (LC_ArrayDeref.addAccess fill roots array) := by
  cases depth with
  | zero => simp [LC_ArrayDeref.NoDuplicates]
  | succ depth =>
    unfold LC_ArrayDeref.addAccess
    split
    · rename_i hfind
      have hnone := (LC_ArrayDeref.FindIn_eq_none_iff fill _ _).1 hfind
      apply LC_ArrayDeref.noDuplicates_append_new fill depth 0 _ _ h
      · intro c hc
        rw [LC_ArrayDeref.addLevels_Lcl, (LC_ArrayDeref.Lcl_new fill array 0).2]
        exact hnone c (by simpa using hc)
      · rw [(LC_ArrayDeref.addLevels_fields fill array _ 0 _).2]
        rfl
      · exact LC_ArrayDeref.addLevels_noDuplicates fill array _ 0 _ depth rfl
          (LC_ArrayDeref.noDuplicates_nil fill depth (0 + 1))
    · apply LC_ArrayDeref.noDuplicates_updateFound fill depth 0 _ _ _ h
      intro c hcl hcn
      exact ⟨(LC_ArrayDeref.addLevels_fields fill array _ 0 c).2.trans hcl,
        LC_ArrayDeref.addLevels_Lcl fill array _ 0 c,
        LC_ArrayDeref.addLevels_noDuplicates fill array _ 0 c depth hcl hcn⟩

theorem LC_ArrayDeref.foldl_addAccess_noDuplicates (fill depth : Nat) (arrayDeref : List LC_Array)
    (roots : List LC_ArrayDeref) (h : LC_ArrayDeref.NoDuplicates fill depth 0 roots) :
    LC_ArrayDeref.NoDuplicates fill depth 0 (arrayDeref.foldl (LC_ArrayDeref.addAccess fill) roots) := by
  induction arrayDeref generalizing roots with
  | nil => exact h
  | cons a as ih =>
    exact ih _ (LC_ArrayDeref.addAccess_noDuplicates fill depth roots a h)

theorem LC_ArrayDeref.addAccess_keys (fill : Nat) (roots : List LC_ArrayDeref)
    (array : LC_Array) (k : Nat) :
    k ∈ (LC_ArrayDeref.addAccess fill roots array).map (LC_ArrayDeref.Lcl fill) ↔
      k ∈ roots.map (LC_ArrayDeref.Lcl fill) ∨ array.arrIndex.arrLcl = k := by
  unfold LC_ArrayDeref.addAccess
  split
  · simp only [List.map_append, List.map_cons, List.map_nil, List.mem_append,
      List.mem_singleton, LC_ArrayDeref.addLevels_Lcl, (LC_ArrayDeref.Lcl_new fill array 0).2]
    exact or_congr Iff.rfl eq_comm
  · rename_i c hfind
    obtain ⟨hc1, hc2⟩ := LC_ArrayDeref.FindIn_some fill _ _ _ hfind
    rw [LC_ArrayDeref.map_Lcl_updateFound fill _ _ roots
      (fun c _ => LC_ArrayDeref.addLevels_Lcl fill array _ 0 c)]
    constructor
    · exact Or.inl
    · rintro (h | h)
      · exact h
      · rw [← h, ← hc2]
        exact List.mem_map.2 ⟨c, by simpa using hc1, rfl⟩

theorem LC_ArrayDeref.foldl_addAccess_keys (fill : Nat) (arrayDeref : List LC_Array)
    (roots : List LC_ArrayDeref) (k : Nat) :
    k ∈ (arrayDeref.foldl (LC_ArrayDeref.addAccess fill) roots).map (LC_ArrayDeref.Lcl fill) ↔
      k ∈ roots.map (LC_ArrayDeref.Lcl fill) ∨ ∃ a ∈ arrayDeref, a.arrIndex.arrLcl = k := by
  induction arrayDeref generalizing roots with
  | nil => simp
  | cons a as ih =>
    rw [List.foldl_cons, ih, LC_ArrayDeref.addAccess_keys]
    simp only [List.mem_cons, exists_eq_or_imp]
    exact or_assoc

theorem LC_ArrayDeref.build_pair_keys (fill : Nat) (a1 a2 : LC_Array)
    (h : a1.arrIndex.arrLcl = a2.arrIndex.arrLcl) :
    (LC_ArrayDeref.build fill [a1, a2]).map (LC_ArrayDeref.Lcl fill) = [a1.arrIndex.arrLcl] := by
  have h1 : LC_ArrayDeref.addAccess fill [] a1
      = [LC_ArrayDeref.addLevels fill a1 0 a1.GetDimRank.toNat (LC_ArrayDeref.new a1 0)] := by
    simp [LC_ArrayDeref.addAccess, LC_ArrayDeref.FindIn]
  have hk : (LC_ArrayDeref.addLevels fill a1 0 a1.GetDimRank.toNat
      (LC_ArrayDeref.new a1 0)).Lcl fill = a2.arrIndex.arrLcl := by
    rw [LC_ArrayDeref.addLevels_Lcl, (LC_ArrayDeref.Lcl_new fill a1 0).2, h]
  simp only [LC_ArrayDeref.build, List.foldl_cons, List.foldl_nil, h1]
  simp [LC_ArrayDeref.addAccess, LC_ArrayDeref.FindIn, LC_ArrayDeref.updateFound, hk,
    LC_ArrayDeref.addLevels_Lcl, h]

/-- C22: the dereference tree never holds duplicate branches. The static
`Find(children, lcl)` returns an existing sibling whose `Lcl()` equals `lcl`
when there is one and reports absence otherwise; for every list of array
accesses the built tree has pairwise different `Lcl()` among the roots and
among the children of every node, to any depth, and its roots are exactly the
distinct base slots of the accesses; for two accesses with the same base slot,
such as `a[i][j]` and `a[i][k]`, there is exactly one level-0 node, shared by
both. -/
theorem LC_ArrayDeref.build_no_duplicate_branches (fill : Nat) (arrayDeref : List LC_Array) :
    (∀ (children : Option (List LC_ArrayDeref)) (lcl : Nat),
      (LC_ArrayDeref.FindIn fill children lcl = none ↔
        ∀ c ∈ children.getD [], c.Lcl fill ≠ lcl) ∧
      (∀ c, LC_ArrayDeref.FindIn fill children lcl = some c →
        c ∈ children.getD [] ∧ c.Lcl fill = lcl)) ∧
    (∀ depth, LC_ArrayDeref.NoDuplicates fill depth 0 (LC_ArrayDeref.build fill arrayDeref)) ∧
    ((LC_ArrayDeref.build fill arrayDeref).map (LC_ArrayDeref.Lcl fill)).Nodup ∧
    (∀ k, k ∈ (LC_ArrayDeref.build fill arrayDeref).map (LC_ArrayDeref.Lcl fill) ↔
      ∃ a ∈ arrayDeref, a.arrIndex.arrLcl = k) ∧
    (∀ a1 a2 : LC_Array, a1.arrIndex.arrLcl = a2.arrIndex.arrLcl →
      (LC_ArrayDeref.build fill [a1, a2]).map (LC_ArrayDeref.Lcl fill) = [a1.arrIndex.arrLcl] ∧
      (LC_ArrayDeref.build fill [a1, a2]).length = 1) := by
  have hnd : ∀ depth, LC_ArrayDeref.NoDuplicates fill depth 0
      (LC_ArrayDeref.build fill arrayDeref) := fun depth =>
    LC_ArrayDeref.foldl_addAccess_noDuplicates fill depth arrayDeref []
      (LC_ArrayDeref.noDuplicates_nil fill depth 0)
  refine ⟨?_, hnd, (hnd 1).1, ?_, ?_⟩
  · intro children lcl
    exact ⟨LC_ArrayDeref.FindIn_eq_none_iff fill children lcl,
      fun c h => LC_ArrayDeref.FindIn_some fill children lcl c h⟩
  · intro k
    have := LC_ArrayDeref.foldl_addAccess_keys fill arrayDeref [] k
    simpa [LC_ArrayDeref.build] using this
  · intro a1 a2 h
    have hk := LC_ArrayDeref.build_pair_keys fill a1 a2 h
    refine ⟨hk, ?_⟩
    have := congrArg List.length hk
    simpa using this

theorem LC_ArrayDeref.build_no_duplicate_branches_witness :
    (sampleAccess 3).arrIndex.arrLcl = (sampleAccess 4).arrIndex.arrLcl ∧
    ((LC_ArrayDeref.build 0 [sampleAccess 3, sampleAccess 4]).map (LC_ArrayDeref.Lcl 0) = [1] ∧
     (LC_ArrayDeref.build 0 [sampleAccess 3, sampleAccess 4]).length = 1) ∧
    ((LC_ArrayDeref.build 0 [sampleAccess 3, sampleAccess 4]).map
      (fun root => root.childList.map (LC_ArrayDeref.Lcl 0))) = [[2]] ∧
    ((LC_ArrayDeref.build 0 [sampleAccess 3, sampleAccess 4]).map
      (fun root => root.childList.map
        (fun child => child.childList.map (LC_ArrayDeref.Lcl 0)))) = [[[3, 4]]] :=
  ⟨rfl,
   (LC_ArrayDeref.build_no_duplicate_branches 0 []).2.2.2.2 (sampleAccess 3) (sampleAccess 4) rfl,
   by decide, by decide⟩

/-! ## The block-count cap -/

end LoopCloning
